import Mathlib

/-!
Verification development for the Research-Interaction Streaming & Resilience
Engine of `gemini-research-mcp` (module `gemini_research_mcp/deep.py`, with
supporting definitions from `config.py` and `types.py`).

The Python source is embedded shallowly: pure helpers become Lean functions,
the stateful streaming engine becomes explicit state passing over lists of
backend responses, and each backend interaction point (stream creation,
stream resumption, status polling, critique/fact-check model calls) is fed by
an explicit response value so that entire executions are computable.
Machine floats that only serve as wall-clock values are modelled as rationals.
-/

namespace GeminiResearchMCP

/-! ## Python-truthiness and string helpers -/

/-- Truthiness of a Python `str | None` value: `None` and `""` are falsy. -/
def optTruthy : Option String → Bool
  | none => false
  | some s => s ≠ ""

/-- Rendering of a Python `str | None` inside an f-string: `None` prints as
`"None"`. -/
def optStr : Option String → String
  | none => "None"
  | some s => s

/-- Whether `pre` is a prefix of `s`, on character lists (the library's
`String.isPrefixOf` is opaque to kernel evaluation, so prefix tests are
modelled structurally). -/
def listStartsWith : List Char → List Char → Bool
  | [], _ => true
  | _ :: _, [] => false
  | a :: as, b :: bs => a == b && listStartsWith as bs

/-- Python `s.startswith(pre)`. -/
def pyStartsWith (pre s : String) : Bool :=
  listStartsWith pre.data s.data

/-- Substring containment on character lists. -/
def listContainsSub : List Char → List Char → Bool
  | [], needle => listStartsWith needle []
  | h :: hs, needle => listStartsWith needle (h :: hs) || listContainsSub hs needle

/-- Substring containment, the Python `needle in hay` test on strings. -/
def containsSub (hay needle : String) : Bool :=
  listContainsSub hay.data needle.data

/-- ASCII-range uppercasing of one character (the strings the parsers look
for are ASCII). -/
def charUpper (c : Char) : Char :=
  if 'a' ≤ c ∧ c ≤ 'z' then Char.ofNat (c.toNat - 32) else c

/-- ASCII-range lowercasing of one character. -/
def charLower (c : Char) : Char :=
  if 'A' ≤ c ∧ c ≤ 'Z' then Char.ofNat (c.toNat + 32) else c

/-- Python `s.upper()` (ASCII range). -/
def pyUpper (s : String) : String :=
  ⟨s.data.map charUpper⟩

/-- Python `s.lower()` (ASCII range). -/
def pyLower (s : String) : String :=
  ⟨s.data.map charLower⟩

/-- Python `s.strip()`: whitespace removed from both ends. -/
def pyStrip (s : String) : String :=
  ⟨((s.data.dropWhile Char.isWhitespace).reverse.dropWhile Char.isWhitespace).reverse⟩

/-- Splitting on a single separator character, the Python `s.split(sep)`
for a one-character separator (all separators used by the code are single
characters). -/
def splitCharAux (sep : Char) : List Char → List Char → List String
  | [], cur => [⟨cur.reverse⟩]
  | c :: cs, cur =>
      if c == sep then ⟨cur.reverse⟩ :: splitCharAux sep cs []
      else splitCharAux sep cs (c :: cur)

/-- Python `s.split(sep)` with a one-character separator. -/
def splitOnChar (sep : Char) (s : String) : List String :=
  splitCharAux sep s.data []

/-! ## config.py -/

/-- Retryable error keywords, `RETRYABLE_ERRORS` in `config.py`. -/
def RETRYABLE_ERRORS : List String :=
  ["gateway_timeout", "deadline_expired", "timeout", "connection_reset",
   "closed", "aborted", "internal_error", "service_unavailable"]

/-- Keyword classification of retryable errors, `is_retryable_error` in
`config.py`: any of the configured keywords occurring in the lowercased
message makes the error retryable. -/
def is_retryable_error (error_msg : String) : Bool :=
  RETRYABLE_ERRORS.any (fun err => containsSub (pyLower error_msg) err)

/-- Value of `MAX_INITIAL_RETRIES` in `config.py`. -/
def MAX_INITIAL_RETRIES : Nat := 3

/-- Value of `MAX_POLL_TIME` in `config.py` (seconds). -/
def MAX_POLL_TIME : ℚ := 3600

/-! ## types.py -/

/-- Structured error, `DeepResearchError` in `types.py`.  The `details`
dictionary is not needed by any claim and is omitted. -/
structure DeepResearchError where
  code : String
  message : String
deriving Repr, DecidableEq

/-- Python `str()` of a `DeepResearchError`: its constructor calls
`super().__init__(f"{code}: {message}")`. -/
def DeepResearchError.toStr (e : DeepResearchError) : String :=
  e.code ++ ": " ++ e.message

/-- Progress event, `DeepResearchProgress` in `types.py`. -/
structure DeepResearchProgress where
  event_type : String
  content : Option String := none
  interaction_id : Option String := none
  event_id : Option String := none
deriving Repr, DecidableEq

/-! ## Client health (`ClientHealth` in deep.py)

Wall-clock instants are rationals.  `CLIENT_MAX_AGE_SECONDS` and
`CLIENT_MAX_REQUESTS` are imported by `deep.py` from `config.py` but are
absent from that file in the tree; following the spec they are configurable
(max age defaulting to about 30 minutes, request cap 0 meaning unlimited),
so they are carried as explicit parameters here. -/

/-- Modelled from the spec: the configuration constants
`CLIENT_MAX_AGE_SECONDS` (default about 30 minutes) and
`CLIENT_MAX_REQUESTS` (0 = unlimited), which are missing from the `config.py`
in the tree. -/
structure HealthConfig where
  clientMaxAgeSeconds : ℚ := 1800
  clientMaxRequests : Nat := 0
deriving Repr, DecidableEq

/-- Health record of one client connection, `ClientHealth` in `deep.py`. -/
structure ClientHealth where
  created_at : ℚ
  request_count : Nat := 0
  last_request_at : ℚ
  consecutive_failures : Nat := 0
deriving Repr, DecidableEq

/-- Recording of a successful request, `ClientHealth.record_request`:
increments `request_count`, moves `last_request_at` to the current time and
zeroes `consecutive_failures`. -/
def ClientHealth.record_request (h : ClientHealth) (now : ℚ) : ClientHealth :=
  { h with
    request_count := h.request_count + 1
    last_request_at := now
    consecutive_failures := 0 }

/-- Recording of a failed request, `ClientHealth.record_failure`: increments
`consecutive_failures` only. -/
def ClientHealth.record_failure (h : ClientHealth) : ClientHealth :=
  { h with consecutive_failures := h.consecutive_failures + 1 }

/-- Refresh decision, `ClientHealth.needs_refresh` in `deep.py`: refresh when
the client is too old, has served too many requests (if a cap is set), has
three or more consecutive failures, or has been idle for more than half the
maximum age. -/
def ClientHealth.needs_refresh (cfg : HealthConfig) (now : ℚ) (h : ClientHealth) : Bool :=
  let age := now - h.created_at
  let idle_time := now - h.last_request_at
  if age > cfg.clientMaxAgeSeconds then true
  else if cfg.clientMaxRequests > 0 ∧ h.request_count ≥ cfg.clientMaxRequests then true
  else if h.consecutive_failures ≥ 3 then true
  else if idle_time > cfg.clientMaxAgeSeconds / 2 then true
  else false

/-! ## Wire events and the stream decoder (`process_stream` in deep.py)

A backend wire event (`chunk`) carries an `event_type`, an optional
`event_id`, and type-specific payload.  `deep_research_stream.process_stream`
decodes each chunk into zero or one `DeepResearchProgress` events while
updating the decoder state (`interaction_id`, `last_event_id`, `is_complete`,
`received_any_event`). -/

/-- Payload of a `content.delta` wire event: `delta.type` distinguishes
thought summaries (whose text the code reads from `delta.content`) from text
deltas (read from `delta.text`); any other `delta.type` is ignored. -/
inductive WireDelta where
  | thought (text : String)
  | text (text : String)
  | otherKind (ty : String)
deriving Repr, DecidableEq

/-- Backend wire event as consumed by `process_stream`.  `eventId` is the
chunk's `event_id` attribute (`none` models both a missing attribute and
`None`). -/
inductive WireEvent where
  | start (interactionId : String) (eventId : Option String)
  | delta (d : WireDelta) (eventId : Option String)
  | complete (status : String) (eventId : Option String)
  | error (msg : String) (eventId : Option String)
  | otherEvent (ty : String) (eventId : Option String)
deriving Repr, DecidableEq

/-- Raw `event_id` attribute of a wire event. -/
def WireEvent.eventId : WireEvent → Option String
  | .start _ e => e
  | .delta _ e => e
  | .complete _ e => e
  | .error _ e => e
  | .otherEvent _ e => e

/-- Whether a wire event is an `interaction.start` event. -/
def WireEvent.isStart : WireEvent → Bool
  | .start _ _ => true
  | _ => false

/-- Whether processing a wire event sets the completion flag: an
`interaction.complete` whose embedded status is `completed`, or an `error`
event. -/
def WireEvent.completing : WireEvent → Bool
  | .complete status _ => status = "completed"
  | .error _ _ => true
  | _ => false

/-- Decoder state threaded through `process_stream` (the `nonlocal`
variables of `deep_research_stream` that it mutates). -/
structure StreamState where
  interaction_id : Option String := none
  last_event_id : Option String := none
  is_complete : Bool := false
  received_any_event : Bool := false
deriving Repr, DecidableEq

/-- Update of the remembered `last_event_id` by a chunk's `event_id`
(`if hasattr(chunk, "event_id") and chunk.event_id:` in `process_stream`):
only a truthy (present, non-empty) id replaces the remembered one. -/
def updateEventId (last : Option String) (eid : Option String) : Option String :=
  if optTruthy eid then eid else last

/-- Decoding of one wire chunk by `process_stream`: the successor decoder
state and the list of progress events yielded for this chunk (zero or one).
The `interaction.start` branch executes `continue` before the
`last_event_id` update, so start events do not touch `last_event_id`. -/
def processChunk (s : StreamState) (c : WireEvent) : StreamState × List DeepResearchProgress :=
  let s0 := { s with received_any_event := true }
  match c with
  | .start id eid =>
      ({ s0 with interaction_id := some id },
       [{ event_type := "start", interaction_id := some id, event_id := eid }])
  | .delta d _ =>
      let s1 := { s0 with last_event_id := updateEventId s0.last_event_id c.eventId }
      match d with
      | .thought t =>
          (s1, [{ event_type := "thought", content := some t,
                  interaction_id := s1.interaction_id, event_id := s1.last_event_id }])
      | .text t =>
          (s1, [{ event_type := "text", content := some t,
                  interaction_id := s1.interaction_id, event_id := s1.last_event_id }])
      | .otherKind _ => (s1, [])
  | .complete status _ =>
      let s1 := { s0 with last_event_id := updateEventId s0.last_event_id c.eventId }
      if status = "completed" then
        ({ s1 with is_complete := true },
         [{ event_type := "complete", interaction_id := s1.interaction_id,
            event_id := s1.last_event_id }])
      else (s1, [])
  | .error msg _ =>
      let s1 := { s0 with last_event_id := updateEventId s0.last_event_id c.eventId,
                          is_complete := true }
      (s1, [{ event_type := "error", content := some msg,
              interaction_id := s1.interaction_id, event_id := s1.last_event_id }])
  | .otherEvent _ _ =>
      ({ s0 with last_event_id := updateEventId s0.last_event_id c.eventId }, [])

/-- Decoding of a whole stream by `process_stream`: left-to-right fold of
`processChunk`, concatenating the yielded progress events. -/
def process_stream (s : StreamState) : List WireEvent → StreamState × List DeepResearchProgress
  | [] => (s, [])
  | c :: cs =>
      let p := processChunk s c
      let q := process_stream p.1 cs
      (q.1, p.2 ++ q.2)

/-! ## The streaming engine (`deep_research_stream` in deep.py)

The engine is a generator with three phases: a bounded initial-connect loop
(`client.aio.interactions.create`), a check that an `interaction_id` was
captured, and a bounded reconnection loop
(`client.aio.interactions.get(id, stream=True, last_event_id?)`).  Each
backend response is supplied explicitly; a run produces a final engine state
together with a trace of externally visible actions (backend calls, consumed
chunks, yielded progress events, forced client refreshes, recorded reconnect
failures). -/

/-- Python exception raised by a stream call or while iterating a stream.
`typeError msg` is a `TypeError` with text `msg`; `exc msg` is any other
exception with text `msg`. -/
inductive PyExc where
  | typeError (msg : String)
  | exc (msg : String)
deriving Repr, DecidableEq

/-- Text of an exception (`str(e)`). -/
def PyExc.msg : PyExc → String
  | .typeError m => m
  | .exc m => m

/-- Response of one `create`/`get` streaming call: `noneStream` models the
call returning `None`; `stream chunks exc` models a stream that yields
`chunks` and then either ends normally (`exc = none`) or raises
(`exc = some e`).  A call that raises before yielding anything is
`stream [] (some e)`. -/
inductive ConnectResp where
  | noneStream
  | stream (chunks : List WireEvent) (exc : Option PyExc)
deriving Repr, DecidableEq

/-- Externally visible action of an engine run. -/
inductive EngineAction where
  | connectCall
  | reconnectCall (id : String) (lastEventId : Option String)
  | consume (c : WireEvent)
  | yieldEvent (p : DeepResearchProgress)
  | forceRefresh
  | reconnectFailed
deriving Repr, DecidableEq

/-- Whether an action is a stream-resumption request. -/
def EngineAction.isReconnectCall : EngineAction → Bool
  | .reconnectCall _ _ => true
  | _ => false

/-- Mutable locals of `deep_research_stream` besides the decoder state. -/
structure EngineState where
  ss : StreamState := {}
  initial_attempt : Nat := 0
  stream_retry_count : Nat := 0
  disconnect_count : Nat := 0
deriving Repr, DecidableEq

/-- Retry budgets of the engine.  `maxInitialRetries` is
`MAX_INITIAL_RETRIES` from `config.py`; `maxStreamRetries` is modelled from
the spec: `MAX_STREAM_RETRIES` (default 5) is imported by `deep.py` but
missing from the `config.py` in the tree. -/
structure EngineConfig where
  maxInitialRetries : Nat := MAX_INITIAL_RETRIES
  maxStreamRetries : Nat := 5
deriving Repr, DecidableEq

/-- Consumption of a stream inside `process_stream`, recorded as trace
actions: each chunk is consumed and its decoded progress events are yielded
before the next chunk is read. -/
def chunkActions (s : StreamState) : List WireEvent → StreamState × List EngineAction
  | [] => (s, [])
  | c :: cs =>
      let p := processChunk s c
      let q := chunkActions p.1 cs
      (q.1, .consume c :: (p.2.map .yieldEvent ++ q.2))

/-- Whether the `TypeError` text matches the code's test for a `None` stream
(`"NoneType" in str(e) and "not iterable" in str(e)`). -/
def isNoneTypeIterableError (msg : String) : Bool :=
  containsSub msg "NoneType" && containsSub msg "not iterable"

/-- Handling of one initial-connection attempt (the body of the Phase 1
`while` loop after the attempt counter has been incremented): the successor
state, the actions of the attempt after the `create` call itself, and
whether the loop retries (`continue`) or stops (`break` or normal exit).
A `None` stream backs off and retries; a clean stream is consumed and the
loop ends; a `TypeError` matching the `None`-stream pattern retries, any
other `TypeError` counts a disconnect and stops; any other exception counts
a disconnect and retries only while retryable with attempts left. -/
def initialStep (cfg : EngineConfig) (st : EngineState) :
    ConnectResp → EngineState × List EngineAction × Bool
  | .noneStream => (st, [], true)
  | .stream chunks none =>
      let p := chunkActions st.ss chunks
      ({ st with ss := p.1 }, p.2, false)
  | .stream chunks (some e) =>
      let p := chunkActions st.ss chunks
      let st := { st with ss := p.1 }
      match e with
      | .typeError msg =>
          if isNoneTypeIterableError msg then (st, p.2, true)
          else ({ st with disconnect_count := st.disconnect_count + 1 }, p.2, false)
      | .exc msg =>
          let st := { st with disconnect_count := st.disconnect_count + 1 }
          if is_retryable_error msg = true ∧ st.initial_attempt < cfg.maxInitialRetries then
            (st, p.2, true)
          else (st, p.2, false)

/-- Phase 1 of `deep_research_stream`: the initial-connection loop.  Each
iteration (while `initial_attempt < MAX_INITIAL_RETRIES`) issues a `create`
call and handles its response by `initialStep`, consuming one backend
response per attempt. -/
def initialLoop (cfg : EngineConfig) (st : EngineState) :
    List ConnectResp → EngineState × List EngineAction
  | [] => (st, [])
  | r :: rs =>
      if st.initial_attempt < cfg.maxInitialRetries then
        let st := { st with initial_attempt := st.initial_attempt + 1 }
        let p := initialStep cfg st r
        if p.2.2 then
          let q := initialLoop cfg p.1 rs
          (q.1, .connectCall :: (p.2.1 ++ q.2))
        else (p.1, .connectCall :: p.2.1)
      else (st, [])

/-- One iteration of the Phase 3 reconnection loop of
`deep_research_stream`, assuming its guard held: increment the retry
counter, issue `get(id, stream=True, last_event_id?)`, and handle the
response.  A `None` stream records a client failure and continues; a stream
is consumed, any yielded progress event resetting the retry counter; an
exception (at the call or mid-stream) increments `disconnect_count`, records
the failure, and forces a client refresh once `disconnect_count >= 3`. -/
def reconnectStep (st : EngineState) (r : ConnectResp) : EngineState × List EngineAction :=
  let st := { st with stream_retry_count := st.stream_retry_count + 1 }
  let callAct : EngineAction :=
    .reconnectCall (optStr st.ss.interaction_id) st.ss.last_event_id
  match r with
  | .noneStream => (st, [callAct])
  | .stream chunks none =>
      let p := chunkActions st.ss chunks
      let yielded := p.2.any (fun a => match a with | .yieldEvent _ => true | _ => false)
      ({ st with ss := p.1,
                 stream_retry_count := if yielded then 0 else st.stream_retry_count },
       callAct :: p.2)
  | .stream chunks (some _) =>
      let p := chunkActions st.ss chunks
      let yielded := p.2.any (fun a => match a with | .yieldEvent _ => true | _ => false)
      let st := { st with ss := p.1,
                          stream_retry_count := if yielded then 0 else st.stream_retry_count }
      let st := { st with disconnect_count := st.disconnect_count + 1 }
      let extra : List EngineAction :=
        if st.disconnect_count ≥ 3 then [.reconnectFailed, .forceRefresh] else [.reconnectFailed]
      (st, callAct :: (p.2 ++ extra))

/-- Phase 3 of `deep_research_stream`: the reconnection loop, running while
the run is not complete, an interaction id is known (Python truthiness), and
the retry counter is below `MAX_STREAM_RETRIES`.  One backend response is
consumed per iteration. -/
def reconnectLoop (cfg : EngineConfig) (st : EngineState) :
    List ConnectResp → EngineState × List EngineAction
  | [] => (st, [])
  | r :: rs =>
      if st.ss.is_complete = false ∧ optTruthy st.ss.interaction_id = true ∧
          st.stream_retry_count < cfg.maxStreamRetries then
        let p := reconnectStep st r
        let q := reconnectLoop cfg p.1 rs
        (q.1, p.2 ++ q.2)
      else (st, [])

/-- Terminal error message of Phase 2 (no `interaction_id` after the initial
attempts); elapsed wall-clock time is abstracted away. -/
def connectionFailedMsg (attempts : Nat) : String :=
  "Failed to start research after " ++ toString attempts ++
    " attempts. No interaction_id received from API. This may be a temporary API issue. Please try again in a few minutes."

/-- Terminal error message of Phase 4 (stream never completed); elapsed
wall-clock time is abstracted away. -/
def interruptedMsg (disconnects retries : Nat) (id : Option String) : String :=
  "Research interrupted (" ++ toString disconnects ++ " disconnects, " ++
    toString retries ++ " reconnect attempts). Interaction ID: " ++ optStr id

/-- Full engine run of `deep_research_stream` over explicit backend
responses: Phase 1 initial connection, Phase 2 fatal check (no
`interaction_id` and not complete: force a client refresh and yield a
terminal error), Phase 3 reconnection loop, Phase 4 final status check
(yield a terminal error when the run never completed). -/
def deep_research_stream (cfg : EngineConfig) (creates gets : List ConnectResp) :
    EngineState × List EngineAction :=
  let p := initialLoop cfg {} creates
  let st1 := p.1
  if st1.ss.interaction_id = none ∧ st1.ss.is_complete = false then
    (st1, p.2 ++ [.forceRefresh,
      .yieldEvent { event_type := "error",
                    content := some (connectionFailedMsg st1.initial_attempt) }])
  else
    let q := reconnectLoop cfg st1 gets
    let st2 := q.1
    if !st2.ss.is_complete then
      (st2, p.2 ++ q.2 ++
        [.yieldEvent { event_type := "error",
                       content := some (interruptedMsg st2.disconnect_count
                         st2.stream_retry_count st2.ss.interaction_id),
                       interaction_id := st2.ss.interaction_id,
                       event_id := st2.ss.last_event_id }])
    else (st2, p.2 ++ q.2)

/-! ## Trace predicates

Boolean scanners over engine traces, used to state temporal properties of
`deep_research_stream` runs. -/

/-- Whether a trace contains no stream-resumption request. -/
def noReconnectCall (l : List EngineAction) : Bool :=
  l.all (fun a => !a.isReconnectCall)

/-- Whether a trace consumes a wire event that sets the completion flag. -/
def hasCompleting (l : List EngineAction) : Bool :=
  l.any (fun a => match a with | .consume c => c.completing | _ => false)

/-- Scanner for the no-reconnect-after-completion property: once a
completion-flagging wire event (`interaction.complete` with status
`completed`, or `error`) has been consumed, no later action may be a
stream-resumption request. -/
def afterCompleteOk : List EngineAction → Bool
  | [] => true
  | .consume c :: rest =>
      (if c.completing then noReconnectCall rest else true) && afterCompleteOk rest
  | _ :: rest => afterCompleteOk rest

/-- Effect of a consumed wire event on the remembered resumption cursor:
`interaction.start` is skipped (its branch `continue`s before the update);
every other event updates the cursor when its `event_id` is truthy. -/
def chunkEidUpdate (cur : Option String) (c : WireEvent) : Option String :=
  if c.isStart then cur else updateEventId cur c.eventId

/-- Resumption cursor after a trace: fold of `chunkEidUpdate` over the
consumed wire events. -/
def eidAfter (cur : Option String) : List EngineAction → Option String
  | [] => cur
  | .consume c :: rest => eidAfter (chunkEidUpdate cur c) rest
  | _ :: rest => eidAfter cur rest

/-- Scanner for the resumption property: every stream-resumption request
carries exactly the cursor accumulated (via `chunkEidUpdate`) over all wire
events consumed before it. -/
def resumeCursorOk : Option String → List EngineAction → Bool
  | _, [] => true
  | cur, .consume c :: rest => resumeCursorOk (chunkEidUpdate cur c) rest
  | cur, .reconnectCall _ eid :: rest => (eid == cur) && resumeCursorOk cur rest
  | cur, _ :: rest => resumeCursorOk cur rest

/-- Scanner state for the refresh-after-failures property: the number of
recorded reconnect failures so far, and whether a client refresh is owed
before the next resumption request. -/
def refreshState : Nat × Bool → List EngineAction → Nat × Bool
  | st, [] => st
  | (n, _), .reconnectFailed :: rest => refreshState (n + 1, decide (3 ≤ n + 1)) rest
  | (n, _), .forceRefresh :: rest => refreshState (n, false) rest
  | st, _ :: rest => refreshState st rest

/-- Scanner for the refresh-after-failures property: whenever the running
count of reconnect failures reaches three, a forced client refresh must
occur before any further stream-resumption request. -/
def refreshDiscipline : Nat → Bool → List EngineAction → Bool
  | _, _, [] => true
  | n, _, .reconnectFailed :: rest => refreshDiscipline (n + 1) (decide (3 ≤ n + 1)) rest
  | n, _, .forceRefresh :: rest => refreshDiscipline n false rest
  | n, pending, .reconnectCall _ _ :: rest => !pending && refreshDiscipline n pending rest
  | n, pending, _ :: rest => refreshDiscipline n pending rest

/-! ## Trace-scanner infrastructure -/

/-- Whether an action can appear while consuming a stream: a consumed chunk
or a yielded progress event. -/
def EngineAction.isStreamAct : EngineAction → Bool
  | .consume _ => true
  | .yieldEvent _ => true
  | _ => false

/-- Whether an action is invisible to the refresh-after-failures scanner. -/
def EngineAction.isRefreshNeutral : EngineAction → Bool
  | .reconnectFailed => false
  | .forceRefresh => false
  | .reconnectCall _ _ => false
  | _ => true

/-! ### Phase 1 lemmas -/

/-- Whether an action can be produced by the initial-connection loop. -/
def EngineAction.isPhase1Act : EngineAction → Bool
  | .connectCall => true
  | .consume _ => true
  | .yieldEvent _ => true
  | _ => false

/-! ## Critique and fact-check passes (deep.py)

`CritiqueResult` and `GroundedCritiqueResult` are imported by `deep.py` from
`types.py` but are absent from that file in the tree; their fields follow
the spec (§3) and their construction below follows `deep.py` itself. -/

/-- Modelled from the spec: the `CritiqueResult` record (absent from
`types.py` in the tree), with `rating`, `gaps`, up to five
`follow_up_questions`, and the raw model reply. -/
structure CritiqueResult where
  rating : String
  gaps : List String := []
  follow_up_questions : List String := []
  raw_response : String := ""
deriving Repr, DecidableEq

/-- Modelled from the spec: `needs_refinement` is false exactly for a `PASS`
rating (the repository's tests pin this for `PASS`, `NEEDS_REFINEMENT` and
other ratings). -/
def CritiqueResult.needs_refinement (c : CritiqueResult) : Bool :=
  c.rating != "PASS"

/-- Modelled from the spec: the `GroundedCritiqueResult` record (absent from
`types.py` in the tree). -/
structure GroundedCritiqueResult where
  fact_check_rating : String
  claims_verified : List String := []
  claims_disputed : List String := []
  sources : List String := []
  raw_response : String := ""
deriving Repr, DecidableEq

/-- Python `line.split(".", 1)[-1]`: everything after the first dot, or the
whole string when it has no dot. -/
def splitDotOnceLast (s : String) : String :=
  match splitOnChar '.' s with
  | [] => s
  | [x] => x
  | _ :: rest => String.intercalate "." rest

/-- Follow-up-question extraction loop of `critique_research`: scan lines,
arm on a `FOLLOW_UP_QUESTIONS:` header, and collect the text after the
number of each `1.`–`5.` line. -/
def extractFollowUps (lines : List String) : List String :=
  (lines.foldl (fun acc rawLine =>
    let line := pyStrip rawLine
    if containsSub (pyUpper line) "FOLLOW_UP_QUESTIONS:"
        || containsSub (pyUpper line) "FOLLOW-UP QUESTIONS:" then
      (acc.1, true)
    else if acc.2 && (["1.", "2.", "3.", "4.", "5."].any (fun p => pyStartsWith p line)) then
      let question := pyStrip (splitDotOnceLast line)
      if question ≠ "" then (acc.1 ++ [question], acc.2) else acc
    else acc) (([] : List String), false)).1

/-- Gap extraction loop of `critique_research`: arm on `GAPS IDENTIFIED:`,
collect `-` bullets, and disarm on an empty line or a line starting with
`FOLLOW`. -/
def extractGaps (lines : List String) : List String :=
  (lines.foldl (fun acc rawLine =>
    let line := pyStrip rawLine
    if containsSub (pyUpper line) "GAPS IDENTIFIED:" then (acc.1, true)
    else if acc.2 && pyStartsWith "-" line then
      let gap := pyStrip (line.drop 1)
      if gap ≠ "" then (acc.1 ++ [gap], acc.2) else acc
    else if acc.2 && (pyStartsWith "FOLLOW" line || line = "") then (acc.1, false)
    else acc) (([] : List String), false)).1

/-- Critique pass, `critique_research` in `deep.py`.  `clientResp` is the
outcome of `_get_healthy_client()` — that call happens before the `try`, so
its exception propagates.  `modelResp` is the outcome of the model call
(`response.text or ""`); an exception there is caught and degraded to a
default `PASS` result.  A successful reply is parsed by line-prefix
scanning: `RATING: PASS` anywhere in the uppercased reply gives `PASS`,
anything else `NEEDS_REFINEMENT`. -/
def critique_research (clientResp : Except String Unit)
    (modelResp : Except String String) : Except String CritiqueResult :=
  match clientResp with
  | .error e => .error e
  | .ok _ =>
      match modelResp with
      | .error e =>
          .ok { rating := "PASS", gaps := [], follow_up_questions := [],
                raw_response := "Critique failed: " ++ e }
      | .ok response_text =>
          let rating := if containsSub (pyUpper response_text) "RATING: PASS"
            then "PASS" else "NEEDS_REFINEMENT"
          let lines := splitOnChar '\n' response_text
          .ok { rating := rating,
                gaps := extractGaps lines,
                follow_up_questions := extractFollowUps lines,
                raw_response := response_text }

/-- Payload of a successful grounded call: the reply text and the source
URIs found in the grounding metadata. -/
structure GroundedResp where
  text : String
  sources : List String := []
deriving Repr, DecidableEq

/-- Rating parse of `grounded_critique`: first match, in order, of
`RATING: VERIFIED`, `RATING: PARTIALLY_VERIFIED`, `RATING: DISPUTED` in the
uppercased reply; default `INSUFFICIENT_DATA`. -/
def parseGroundedRating (t : String) : String :=
  if containsSub (pyUpper t) "RATING: VERIFIED" then "VERIFIED"
  else if containsSub (pyUpper t) "RATING: PARTIALLY_VERIFIED" then "PARTIALLY_VERIFIED"
  else if containsSub (pyUpper t) "RATING: DISPUTED" then "DISPUTED"
  else "INSUFFICIENT_DATA"

/-- Accumulator of the claim-extraction loop of `grounded_critique`. -/
structure ClaimsAcc where
  verified : List String := []
  disputed : List String := []
  in_verified : Bool := false
  in_disputed : Bool := false
deriving Repr, DecidableEq

/-- One line of the claim-extraction loop of `grounded_critique`. -/
def claimsStep (acc : ClaimsAcc) (rawLine : String) : ClaimsAcc :=
  let line := pyStrip rawLine
  if containsSub (pyUpper line) "CLAIMS_VERIFIED:"
      || containsSub (pyUpper line) "CLAIMS VERIFIED:" then
    { acc with in_verified := true, in_disputed := false }
  else if containsSub (pyUpper line) "CLAIMS_DISPUTED:"
      || containsSub (pyUpper line) "CLAIMS DISPUTED:" then
    { acc with in_verified := false, in_disputed := true }
  else if containsSub (pyUpper line) "RATING:" then
    { acc with in_verified := false, in_disputed := false }
  else if pyStartsWith "-" line then
    let claim := pyStrip (line.drop 1)
    if claim ≠ "" then
      if acc.in_verified then { acc with verified := acc.verified ++ [claim] }
      else if acc.in_disputed then { acc with disputed := acc.disputed ++ [claim] }
      else acc
    else acc
  else acc

/-- Grounded fact-check pass, `grounded_critique` in `deep.py`.  As in the
critique pass, the client is acquired before the `try`, so `clientResp`
errors propagate; an exception in the grounded call is caught and degraded
to a default `INSUFFICIENT_DATA` result. -/
def grounded_critique (clientResp : Except String Unit)
    (modelResp : Except String GroundedResp) : Except String GroundedCritiqueResult :=
  match clientResp with
  | .error e => .error e
  | .ok _ =>
      match modelResp with
      | .error e =>
          .ok { fact_check_rating := "INSUFFICIENT_DATA",
                raw_response := "Grounded critique failed: " ++ e }
      | .ok resp =>
          let acc := (splitOnChar '\n' resp.text).foldl claimsStep {}
          .ok { fact_check_rating := parseGroundedRating resp.text,
                claims_verified := acc.verified,
                claims_disputed := acc.disputed,
                sources := resp.sources,
                raw_response := resp.text }

/-! ## Follow-up questions (`research_followup` in deep.py) -/

/-- Output object of an interaction as inspected by
`_extract_text_from_interaction`: the `text` and `content` attributes
(outer `none` = attribute missing, inner `none` = attribute is `None`), and
the object's `str()` rendering. -/
structure FOutput where
  text : Option (Option String) := none
  content : Option (Option String) := none
  asStr : String := ""
deriving Repr, DecidableEq

/-- Final-text extraction, `_extract_text_from_interaction` in `deep.py`:
look at the last output; prefer its `text` attribute, falling back to
`content` only when `text` is absent; a `None` value stays `None`. -/
def extract_text_from_interaction (outputs : List FOutput) : Option String :=
  match outputs.getLast? with
  | none => none
  | some o =>
      match o.text with
      | some v => v
      | none =>
          match o.content with
          | some v => v
          | none => none

/-- Error surfaced by `research_followup`: either a `DeepResearchError`
raised by the wrapper, or a raw Python exception (client acquisition happens
before the `try` and propagates unwrapped). -/
inductive FollowupError where
  | drError (e : DeepResearchError)
  | pyError (msg : String)
deriving Repr, DecidableEq

/-- Follow-up call, `research_followup` in `deep.py`.  The `try` block
creates the interaction, extracts text (falling back to `str(outputs[-1])`),
and raises a `NO_RESPONSE` `DeepResearchError` when nothing was produced;
the trailing `except Exception` catches every exception raised inside the
`try` — including that very `DeepResearchError` — and re-raises it as a
`FOLLOWUP_FAILED` error whose message is the `str()` of the original. -/
def research_followup (clientResp : Except String Unit)
    (createResp : Except String (List FOutput)) : Except FollowupError String :=
  match clientResp with
  | .error e => .error (.pyError e)
  | .ok _ =>
      match createResp with
      | .error e => .error (.drError { code := "FOLLOWUP_FAILED", message := e })
      | .ok outputs =>
          let t0 := extract_text_from_interaction outputs
          let t1 := if optTruthy t0 then t0 else
            match outputs.getLast? with
            | some o => some o.asStr
            | none => t0
          if optTruthy t1 then .ok (t1.getD "")
          else
            let noResp : DeepResearchError :=
              { code := "NO_RESPONSE", message := "No response received from follow-up" }
            .error (.drError { code := "FOLLOWUP_FAILED", message := noResp.toStr })

/-! ## deep_research: aggregation, polling fallback, refinement (deep.py) -/

/-- Interaction snapshot returned by a (non-streaming) poll of
`client.aio.interactions.get(id)`: its `status`, the `text` attribute of
each output (`none` = attribute missing or `None`), and its `error`
attribute (`none` = missing). -/
structure PollSnapshot where
  status : String
  outputs : List (Option String) := []
  error : Option String := none
deriving Repr, DecidableEq

/-- Response of one poll call: a snapshot, or a raised exception. -/
inductive PollResp where
  | snapshot (s : PollSnapshot)
  | raised (msg : String)
deriving Repr, DecidableEq

/-- Outcome of the polling loop: a normal exit with the final text and the
`raw_interaction` captured on completion, a raised `DeepResearchError`, a
propagated non-retryable exception, or exhaustion of the supplied responses
(a model artifact: the code would keep polling). -/
inductive PollOutcome where
  | exited (finalText : String) (raw : Option PollSnapshot)
  | errored (e : DeepResearchError)
  | raisedOther (msg : String)
  | fuelOut
deriving Repr, DecidableEq

/-- Polling loop of `deep_research` (the `while time.time() - poll_start <
MAX_POLL_TIME` loop).  Each supplied response is tagged with the elapsed
wall-clock time at the loop-condition check.  A `completed` snapshot
extracts the last output's text (keeping the accumulated text when there
are no outputs) and stops; a `failed` snapshot raises `RESEARCH_FAILED`
with the backend error; any other status sleeps and retries; a retryable
exception is absorbed, a non-retryable one propagates; reaching the ceiling
exits with the text unchanged. -/
def pollLoop (finalText : String) : List (ℚ × PollResp) → PollOutcome
  | [] => .fuelOut
  | (t, r) :: rest =>
      if t < MAX_POLL_TIME then
        match r with
        | .snapshot s =>
            if s.status = "completed" then
              let ft := match s.outputs.getLast? with
                | some o => o.getD ""
                | none => finalText
              .exited ft (some s)
            else if s.status = "failed" then
              .errored { code := "RESEARCH_FAILED",
                         message := (s.error).getD "Unknown error" }
            else pollLoop finalText rest
        | .raised msg =>
            if is_retryable_error msg then pollLoop finalText rest
            else .raisedOther msg
      else .exited finalText none

/-- Accumulator of the stream-aggregation loop of `deep_research`. -/
structure AggState where
  text_parts : List String := []
  thinking_summaries : List String := []
  interaction_id : Option String := none
deriving Repr, DecidableEq

/-- Handling of one progress event by the aggregation loop of
`deep_research`: `start` records the interaction id, truthy `thought` and
`text` contents are appended to their lists, and an `error` event raises
`RESEARCH_FAILED`. -/
def aggStep (a : AggState) (p : DeepResearchProgress) : Except DeepResearchError AggState :=
  if p.event_type = "start" then .ok { a with interaction_id := p.interaction_id }
  else if p.event_type = "thought" then
    .ok (if optTruthy p.content then
      { a with thinking_summaries := a.thinking_summaries ++ [p.content.getD ""] } else a)
  else if p.event_type = "text" then
    .ok (if optTruthy p.content then
      { a with text_parts := a.text_parts ++ [p.content.getD ""] } else a)
  else if p.event_type = "error" then
    .error { code := "RESEARCH_FAILED",
             message := "Deep Research failed: " ++ optStr p.content }
  else .ok a

/-- Stream aggregation of `deep_research`: fold of `aggStep`, aborting at
the first `error` event. -/
def aggregate : AggState → List DeepResearchProgress → Except DeepResearchError AggState
  | a, [] => .ok a
  | a, p :: ps =>
      match aggStep a p with
      | .error e => .error e
      | .ok a' => aggregate a' ps

/-- Result of `deep_research`, `DeepResearchResult` in `types.py` restricted
to the fields the streaming/polling/refinement logic touches (citations,
usage and duration are carried along unchanged by that logic and are
omitted). -/
structure DeepResearchResult where
  text : String
  thinking_summaries : List String := []
  interaction_id : Option String := none
  raw_interaction : Option PollSnapshot := none
deriving Repr, DecidableEq

/-- Error escaping `deep_research`: a `DeepResearchError` or a raw Python
exception. -/
inductive RunError where
  | dr (e : DeepResearchError)
  | py (msg : String)
deriving Repr, DecidableEq

/-- Outcome of a `deep_research` run (with `fuelOut` marking exhaustion of
the supplied poll responses, a model artifact). -/
inductive DeepResearchRun where
  | ok (r : DeepResearchResult)
  | err (e : RunError)
  | fuelOut
deriving Repr, DecidableEq

/-- Backend responses consumed by one `deep_research` run: the progress
events produced by the streaming phase, the poll responses, and the
client/model outcomes of the critique, follow-up and grounded passes
(follow-up outcomes indexed by call number). -/
structure ResearchEnv where
  events : List DeepResearchProgress
  polls : List (ℚ × PollResp) := []
  critiqueClient : Except String Unit := .ok ()
  critiqueResp : Except String String := .error "unavailable"
  followups : Nat → Except String Unit × Except String (List FOutput) :=
    fun _ => (.ok (), .error "unavailable")
  groundedClient : Except String Unit := .ok ()
  groundedResp : Except String GroundedResp := .error "unavailable"

/-- Primary phase of `deep_research`: aggregate the stream; when the
aggregated text is whitespace-only and an interaction id is known, fall
back to polling, and raise `TIMEOUT` if that still yields no usable text. -/
def primaryResult (env : ResearchEnv) : DeepResearchRun :=
  match aggregate {} env.events with
  | .error e => .err (.dr e)
  | .ok agg =>
      let final_text := String.join agg.text_parts
      if pyStrip final_text = "" ∧ optTruthy agg.interaction_id = true then
        match pollLoop final_text env.polls with
        | .fuelOut => .fuelOut
        | .errored e => .err (.dr e)
        | .raisedOther m => .err (.py m)
        | .exited ft raw =>
            if pyStrip ft = "" then
              .err (.dr { code := "TIMEOUT", message := "Deep Research timed out" })
            else
              .ok { text := ft, thinking_summaries := agg.thinking_summaries,
                    interaction_id := agg.interaction_id, raw_interaction := raw }
      else
        .ok { text := final_text, thinking_summaries := agg.thinking_summaries,
              interaction_id := agg.interaction_id, raw_interaction := none }

/-- Auto-refine phase of `deep_research` (the `auto_refine` block): run the
critique pass and, when refinement is needed and follow-up questions exist,
issue one follow-up call per question (at most three), appending each
non-empty answer as a subsection and recording an audit note.  The returned
number counts the follow-up calls issued.  Only the critique pass's client
acquisition can propagate an exception out of this phase. -/
def autoRefinePhase (env : ResearchEnv) (r : DeepResearchResult) :
    Except String (DeepResearchResult × Nat) :=
  if r.text ≠ "" ∧ optTruthy r.interaction_id = true then
    match critique_research env.critiqueClient env.critiqueResp with
    | .error e => .error e
    | .ok critique =>
        if critique.needs_refinement = true ∧ critique.follow_up_questions ≠ [] then
          let questions := critique.follow_up_questions.take 3
          let refinements := questions.enum.foldl (fun acc iq =>
            match research_followup (env.followups iq.1).1 (env.followups iq.1).2 with
            | .ok resp =>
                if resp ≠ "" then acc ++ ["### " ++ iq.2 ++ "\n\n" ++ resp] else acc
            | .error _ => acc) ([] : List String)
          let r' := if refinements ≠ [] then
              { r with
                text := r.text ++ "\n\n---\n\n## Refinements\n\n"
                  ++ String.intercalate "\n\n" refinements,
                thinking_summaries := r.thinking_summaries
                  ++ ["Auto-refinement: Addressed " ++ toString refinements.length
                    ++ " gaps identified by critique"] }
            else r
          .ok (r', questions.length)
        else .ok (r, 0)
  else .ok (r, 0)

/-- Fact-check section appended to the report by the `grounded` block of
`deep_research`. -/
def factCheckSection (g : GroundedCritiqueResult) : String :=
  let s1 := "\n\n---\n\n## Fact-Check (Grounded)\n\n"
    ++ "**Rating:** " ++ g.fact_check_rating ++ "\n\n"
  let s2 := if g.claims_verified ≠ [] then
      "### ✅ Verified Claims\n"
        ++ String.join (g.claims_verified.map (fun c => "- " ++ c ++ "\n")) ++ "\n"
    else ""
  let s3 := if g.claims_disputed ≠ [] then
      "### ⚠️ Disputed Claims\n"
        ++ String.join (g.claims_disputed.map (fun c => "- " ++ c ++ "\n")) ++ "\n"
    else ""
  let s4 := if g.sources ≠ [] then
      "### 📚 Verification Sources\n"
        ++ String.join ((g.sources.take 10).map (fun c => "- " ++ c ++ "\n"))
    else ""
  s1 ++ s2 ++ s3 ++ s4

/-- Grounded fact-check phase of `deep_research` (the `grounded` block): the
whole pass is wrapped in `try/except`, so any exception — including one
from the pass's client acquisition — degrades to an annotation in the
thinking summaries, leaving the text unchanged. -/
def groundedPhase (env : ResearchEnv) (r : DeepResearchResult) : DeepResearchResult :=
  if r.text ≠ "" then
    match grounded_critique env.groundedClient env.groundedResp with
    | .error e =>
        { r with thinking_summaries := r.thinking_summaries
            ++ ["Grounded fact-check failed: " ++ e] }
    | .ok g =>
        { r with
          text := r.text ++ factCheckSection g,
          thinking_summaries := r.thinking_summaries
            ++ ["Grounded fact-check: " ++ g.fact_check_rating ++ " ("
              ++ toString g.claims_verified.length ++ " verified, "
              ++ toString g.claims_disputed.length ++ " disputed)"] }
  else r

/-- Tail of a `deep_research` run after the primary result exists: the
optional auto-refine phase (whose critique-client exception propagates as a
raw Python error) followed by the optional grounded phase. -/
def refineTail (env : ResearchEnv) (auto_refine grounded : Bool)
    (result : DeepResearchResult) : DeepResearchRun :=
  match (if auto_refine then autoRefinePhase env result else .ok (result, 0)) with
  | .error m => .err (.py m)
  | .ok p => .ok (if grounded then groundedPhase env p.1 else p.1)

/-- Full `deep_research` run: primary phase, citation post-processing
(`processCitations` is the external `process_citations` from the `citations`
module, absent from the tree — kept abstract), then `refineTail`. -/
def deep_research (env : ResearchEnv)
    (processCitations : DeepResearchResult → DeepResearchResult)
    (resolve_citations auto_refine grounded : Bool) : DeepResearchRun :=
  match primaryResult env with
  | .fuelOut => .fuelOut
  | .err e => .err e
  | .ok result =>
      refineTail env auto_refine grounded
        (if resolve_citations = true ∧ result.text ≠ "" then
          processCitations result else result)

/-- Concatenation, in arrival order, of the contents of all `text`-kind
progress events. -/
def textConcat (events : List DeepResearchProgress) : String :=
  String.join (events.map (fun p =>
    if p.event_type = "text" then p.content.getD "" else ""))

/-! ## Lemmas and claim theorems -/

/-! ## Per-chunk decoder lemmas -/

theorem processChunk_is_complete (s : StreamState) (c : WireEvent) :
    (processChunk s c).1.is_complete = (s.is_complete || c.completing) := by
  cases c with
  | start id eid => simp [processChunk, WireEvent.completing]
  | delta d eid => cases d <;> simp [processChunk, WireEvent.completing]
  | complete status eid =>
      by_cases h : status = "completed" <;>
        simp [processChunk, WireEvent.completing, h]
  | error msg eid => simp [processChunk, WireEvent.completing]
  | otherEvent ty eid => simp [processChunk, WireEvent.completing]

theorem processChunk_last_event_id (s : StreamState) (c : WireEvent) :
    (processChunk s c).1.last_event_id = chunkEidUpdate s.last_event_id c := by
  cases c with
  | start id eid => simp [processChunk, chunkEidUpdate, WireEvent.isStart]
  | delta d eid =>
      cases d <;> simp [processChunk, chunkEidUpdate, WireEvent.isStart, WireEvent.eventId]
  | complete status eid =>
      by_cases h : status = "completed" <;>
        simp [processChunk, chunkEidUpdate, WireEvent.isStart, WireEvent.eventId, h]
  | error msg eid => simp [processChunk, chunkEidUpdate, WireEvent.isStart, WireEvent.eventId]
  | otherEvent ty eid => simp [processChunk, chunkEidUpdate, WireEvent.isStart, WireEvent.eventId]

theorem all_imp {f g : EngineAction → Bool} (h : ∀ a, f a = true → g a = true) :
    ∀ {l : List EngineAction}, l.all f = true → l.all g = true := by
  intro l
  simp only [List.all_eq_true]
  intro hl a ha
  exact h a (hl a ha)

theorem noReconnectCall_of_streamActs {l : List EngineAction}
    (h : l.all EngineAction.isStreamAct = true) : noReconnectCall l = true := by
  refine all_imp ?_ h
  intro a
  cases a <;> simp [EngineAction.isStreamAct, EngineAction.isReconnectCall]

theorem afterCompleteOk_of_noReconnectCall :
    ∀ {l : List EngineAction}, noReconnectCall l = true → afterCompleteOk l = true := by
  intro l
  induction l with
  | nil => intro _; rfl
  | cons a rest ih =>
      intro h
      rw [noReconnectCall, List.all_cons, Bool.and_eq_true] at h
      have hrest : noReconnectCall rest = true := h.2
      cases a with
      | consume c =>
          by_cases hc : c.completing = true <;>
            simp [afterCompleteOk, hc, hrest, ih hrest]
      | _ => simpa [afterCompleteOk] using ih hrest

theorem resumeCursorOk_of_noReconnectCall :
    ∀ {l : List EngineAction} (cur : Option String),
      noReconnectCall l = true → resumeCursorOk cur l = true := by
  intro l
  induction l with
  | nil => intro cur _; rfl
  | cons a rest ih =>
      intro cur h
      rw [noReconnectCall, List.all_cons, Bool.and_eq_true] at h
      cases a with
      | reconnectCall id eid =>
          simp [EngineAction.isReconnectCall] at h
      | consume c => simpa [resumeCursorOk] using ih _ h.2
      | _ => simpa [resumeCursorOk] using ih _ h.2

theorem refreshDiscipline_of_neutral :
    ∀ {l : List EngineAction} (n : Nat) (p : Bool),
      l.all EngineAction.isRefreshNeutral = true → refreshDiscipline n p l = true := by
  intro l
  induction l with
  | nil => intro n p _; rfl
  | cons a rest ih =>
      intro n p h
      rw [List.all_cons, Bool.and_eq_true] at h
      cases a with
      | reconnectFailed => simp [EngineAction.isRefreshNeutral] at h
      | forceRefresh => simp [EngineAction.isRefreshNeutral] at h
      | reconnectCall id eid => simp [EngineAction.isRefreshNeutral] at h
      | connectCall => simpa [refreshDiscipline] using ih _ _ h.2
      | consume c => simpa [refreshDiscipline] using ih _ _ h.2
      | yieldEvent pr => simpa [refreshDiscipline] using ih _ _ h.2

theorem refreshState_of_neutral :
    ∀ {l : List EngineAction} (st : Nat × Bool),
      l.all EngineAction.isRefreshNeutral = true → refreshState st l = st := by
  intro l
  induction l with
  | nil => intro st _; rfl
  | cons a rest ih =>
      intro st h
      rw [List.all_cons, Bool.and_eq_true] at h
      cases a with
      | reconnectFailed => simp [EngineAction.isRefreshNeutral] at h
      | forceRefresh => simp [EngineAction.isRefreshNeutral] at h
      | reconnectCall id eid => simp [EngineAction.isRefreshNeutral] at h
      | connectCall => simpa [refreshState] using ih _ h.2
      | consume c => simpa [refreshState] using ih _ h.2
      | yieldEvent pr => simpa [refreshState] using ih _ h.2

/-! ### Append lemmas -/

theorem eidAfter_append (cur : Option String) (xs ys : List EngineAction) :
    eidAfter cur (xs ++ ys) = eidAfter (eidAfter cur xs) ys := by
  induction xs generalizing cur with
  | nil => rfl
  | cons a rest ih => cases a <;> simp [eidAfter, ih]

theorem resumeCursorOk_append (cur : Option String) (xs ys : List EngineAction) :
    resumeCursorOk cur (xs ++ ys) =
      (resumeCursorOk cur xs && resumeCursorOk (eidAfter cur xs) ys) := by
  induction xs generalizing cur with
  | nil => simp [resumeCursorOk, eidAfter]
  | cons a rest ih =>
      cases a <;> simp [resumeCursorOk, eidAfter, ih, Bool.and_assoc]

theorem hasCompleting_consume_cons (c : WireEvent) (l : List EngineAction) :
    hasCompleting (.consume c :: l) = (c.completing || hasCompleting l) := by
  simp [hasCompleting]

theorem noReconnectCall_append (xs ys : List EngineAction) :
    noReconnectCall (xs ++ ys) = (noReconnectCall xs && noReconnectCall ys) := by
  simp [noReconnectCall]

theorem afterCompleteOk_append_of {xs ys : List EngineAction}
    (h1 : afterCompleteOk xs = true) (h2 : afterCompleteOk ys = true)
    (h3 : hasCompleting xs = true → noReconnectCall ys = true) :
    afterCompleteOk (xs ++ ys) = true := by
  induction xs with
  | nil => simpa using h2
  | cons a rest ih =>
      cases a with
      | consume c =>
          rw [afterCompleteOk, Bool.and_eq_true] at h1
          by_cases hc : c.completing = true
          · have hys : noReconnectCall ys = true := by
              refine h3 ?_
              rw [hasCompleting_consume_cons, hc, Bool.true_or]
            have hrest : noReconnectCall rest = true := by
              have := h1.1
              rwa [if_pos hc] at this
            have htail : afterCompleteOk (rest ++ ys) = true :=
              ih h1.2 (fun _ => hys)
            rw [List.cons_append, afterCompleteOk, Bool.and_eq_true]
            refine ⟨?_, htail⟩
            rw [if_pos hc, noReconnectCall_append, hrest, hys]
            rfl
          · have htail : afterCompleteOk (rest ++ ys) = true := by
              refine ih h1.2 (fun hr => h3 ?_)
              rw [hasCompleting_consume_cons, hr, Bool.or_true]
            rw [List.cons_append, afterCompleteOk, Bool.and_eq_true]
            exact ⟨by rw [if_neg hc], htail⟩
      | connectCall =>
          simp only [afterCompleteOk] at h1
          have : hasCompleting rest = true → noReconnectCall ys = true := by
            intro hr
            refine h3 ?_
            simpa [hasCompleting] using hr
          simpa [afterCompleteOk] using ih h1 this
      | reconnectCall id eid =>
          simp only [afterCompleteOk] at h1
          have : hasCompleting rest = true → noReconnectCall ys = true := by
            intro hr
            refine h3 ?_
            simpa [hasCompleting] using hr
          simpa [afterCompleteOk] using ih h1 this
      | yieldEvent pr =>
          simp only [afterCompleteOk] at h1
          have : hasCompleting rest = true → noReconnectCall ys = true := by
            intro hr
            refine h3 ?_
            simpa [hasCompleting] using hr
          simpa [afterCompleteOk] using ih h1 this
      | forceRefresh =>
          simp only [afterCompleteOk] at h1
          have : hasCompleting rest = true → noReconnectCall ys = true := by
            intro hr
            refine h3 ?_
            simpa [hasCompleting] using hr
          simpa [afterCompleteOk] using ih h1 this
      | reconnectFailed =>
          simp only [afterCompleteOk] at h1
          have : hasCompleting rest = true → noReconnectCall ys = true := by
            intro hr
            refine h3 ?_
            simpa [hasCompleting] using hr
          simpa [afterCompleteOk] using ih h1 this

theorem refreshDiscipline_append (n : Nat) (p : Bool) (xs ys : List EngineAction) :
    refreshDiscipline n p (xs ++ ys) =
      (refreshDiscipline n p xs &&
        refreshDiscipline (refreshState (n, p) xs).1 (refreshState (n, p) xs).2 ys) := by
  induction xs generalizing n p with
  | nil => simp [refreshDiscipline, refreshState]
  | cons a rest ih =>
      cases a <;> simp [refreshDiscipline, refreshState, ih, Bool.and_assoc]

/-! ### Stream-consumption lemmas -/

theorem eidAfter_yields (ps : List DeepResearchProgress) (cur : Option String)
    (l : List EngineAction) :
    eidAfter cur (ps.map .yieldEvent ++ l) = eidAfter cur l := by
  induction ps with
  | nil => rfl
  | cons p ps ih => simpa [eidAfter] using ih

theorem hasCompleting_yields (ps : List DeepResearchProgress) (l : List EngineAction) :
    hasCompleting (ps.map .yieldEvent ++ l) = hasCompleting l := by
  induction ps with
  | nil => rfl
  | cons p ps ih => simpa [hasCompleting] using ih

theorem chunkActions_all_stream (s : StreamState) (cs : List WireEvent) :
    (chunkActions s cs).2.all EngineAction.isStreamAct = true := by
  induction cs generalizing s with
  | nil => rfl
  | cons c cs ih =>
      simp only [chunkActions, List.all_cons, List.all_append, Bool.and_eq_true]
      refine ⟨rfl, ?_, ih _⟩
      simp [List.all_map, EngineAction.isStreamAct]

theorem chunkActions_is_complete (s : StreamState) (cs : List WireEvent) :
    (chunkActions s cs).1.is_complete
      = (s.is_complete || hasCompleting (chunkActions s cs).2) := by
  induction cs generalizing s with
  | nil => simp [chunkActions, hasCompleting]
  | cons c cs ih =>
      simp only [chunkActions]
      rw [ih, processChunk_is_complete, hasCompleting_consume_cons,
        hasCompleting_yields, Bool.or_assoc]

theorem chunkActions_last_event_id (s : StreamState) (cs : List WireEvent) :
    (chunkActions s cs).1.last_event_id
      = eidAfter s.last_event_id (chunkActions s cs).2 := by
  induction cs generalizing s with
  | nil => rfl
  | cons c cs ih =>
      simp only [chunkActions, eidAfter]
      rw [ih, eidAfter_yields, processChunk_last_event_id]

theorem hasCompleting_append (xs ys : List EngineAction) :
    hasCompleting (xs ++ ys) = (hasCompleting xs || hasCompleting ys) := by
  simp [hasCompleting]

theorem hasCompleting_connect_cons (l : List EngineAction) :
    hasCompleting (.connectCall :: l) = hasCompleting l := by
  simp [hasCompleting]

theorem eidAfter_connect_cons (cur : Option String) (l : List EngineAction) :
    eidAfter cur (.connectCall :: l) = eidAfter cur l := rfl

theorem initialStep_all (cfg : EngineConfig) (st : EngineState) (r : ConnectResp) :
    (initialStep cfg st r).2.1.all EngineAction.isStreamAct = true := by
  cases r with
  | noneStream => rfl
  | stream chunks exc =>
      cases exc with
      | none => simpa [initialStep] using chunkActions_all_stream st.ss chunks
      | some e =>
          cases e with
          | typeError msg =>
              by_cases hp : isNoneTypeIterableError msg = true <;>
                simpa [initialStep, hp] using chunkActions_all_stream st.ss chunks
          | exc msg =>
              by_cases hr : is_retryable_error msg = true ∧
                  st.initial_attempt < cfg.maxInitialRetries <;>
                simpa [initialStep, hr] using chunkActions_all_stream st.ss chunks

theorem initialStep_is_complete (cfg : EngineConfig) (st : EngineState) (r : ConnectResp) :
    (initialStep cfg st r).1.ss.is_complete
      = (st.ss.is_complete || hasCompleting (initialStep cfg st r).2.1) := by
  cases r with
  | noneStream => simp [initialStep, hasCompleting]
  | stream chunks exc =>
      cases exc with
      | none => simpa [initialStep] using chunkActions_is_complete st.ss chunks
      | some e =>
          cases e with
          | typeError msg =>
              by_cases hp : isNoneTypeIterableError msg = true <;>
                simpa [initialStep, hp] using chunkActions_is_complete st.ss chunks
          | exc msg =>
              by_cases hr : is_retryable_error msg = true ∧
                  st.initial_attempt < cfg.maxInitialRetries <;>
                simpa [initialStep, hr] using chunkActions_is_complete st.ss chunks

theorem initialStep_last_event_id (cfg : EngineConfig) (st : EngineState) (r : ConnectResp) :
    (initialStep cfg st r).1.ss.last_event_id
      = eidAfter st.ss.last_event_id (initialStep cfg st r).2.1 := by
  cases r with
  | noneStream => rfl
  | stream chunks exc =>
      cases exc with
      | none => simpa [initialStep] using chunkActions_last_event_id st.ss chunks
      | some e =>
          cases e with
          | typeError msg =>
              by_cases hp : isNoneTypeIterableError msg = true <;>
                simpa [initialStep, hp] using chunkActions_last_event_id st.ss chunks
          | exc msg =>
              by_cases hr : is_retryable_error msg = true ∧
                  st.initial_attempt < cfg.maxInitialRetries <;>
                simpa [initialStep, hr] using chunkActions_last_event_id st.ss chunks

theorem initialLoop_all (cfg : EngineConfig) :
    ∀ (rs : List ConnectResp) (st : EngineState),
      (initialLoop cfg st rs).2.all EngineAction.isPhase1Act = true := by
  intro rs
  induction rs with
  | nil => intro st; rfl
  | cons r rs ih =>
      intro st
      by_cases hg : st.initial_attempt < cfg.maxInitialRetries
      · have hstep :=
          initialStep_all cfg { st with initial_attempt := st.initial_attempt + 1 } r
        have hstep' : (initialStep cfg { st with initial_attempt := st.initial_attempt + 1 }
            r).2.1.all EngineAction.isPhase1Act = true := by
          refine all_imp ?_ hstep
          intro a
          cases a <;> simp [EngineAction.isStreamAct, EngineAction.isPhase1Act]
        by_cases hc :
          (initialStep cfg { st with initial_attempt := st.initial_attempt + 1 } r).2.2 = true
        · simp [initialLoop, hg, hc, hstep', ih, EngineAction.isPhase1Act]
        · simp [initialLoop, hg, hc, hstep', EngineAction.isPhase1Act]
      · simp [initialLoop, hg]

theorem initialLoop_is_complete (cfg : EngineConfig) :
    ∀ (rs : List ConnectResp) (st : EngineState),
      (initialLoop cfg st rs).1.ss.is_complete
        = (st.ss.is_complete || hasCompleting (initialLoop cfg st rs).2) := by
  intro rs
  induction rs with
  | nil => intro st; simp [initialLoop, hasCompleting]
  | cons r rs ih =>
      intro st
      by_cases hg : st.initial_attempt < cfg.maxInitialRetries
      · have hstep :=
          initialStep_is_complete cfg { st with initial_attempt := st.initial_attempt + 1 } r
        by_cases hc :
          (initialStep cfg { st with initial_attempt := st.initial_attempt + 1 } r).2.2 = true
        · simp only [initialLoop, hg, if_true, hc]
          rw [ih, hstep, hasCompleting_connect_cons, hasCompleting_append, Bool.or_assoc]
        · simp only [initialLoop, hg, if_true, hc, if_false, Bool.false_eq_true]
          rw [hstep, hasCompleting_connect_cons]
      · simp [initialLoop, hg, hasCompleting]

theorem initialLoop_last_event_id (cfg : EngineConfig) :
    ∀ (rs : List ConnectResp) (st : EngineState),
      (initialLoop cfg st rs).1.ss.last_event_id
        = eidAfter st.ss.last_event_id (initialLoop cfg st rs).2 := by
  intro rs
  induction rs with
  | nil => intro st; rfl
  | cons r rs ih =>
      intro st
      by_cases hg : st.initial_attempt < cfg.maxInitialRetries
      · have hstep :=
          initialStep_last_event_id cfg { st with initial_attempt := st.initial_attempt + 1 } r
        by_cases hc :
          (initialStep cfg { st with initial_attempt := st.initial_attempt + 1 } r).2.2 = true
        · simp only [initialLoop, hg, if_true, hc]
          rw [ih, hstep, eidAfter_connect_cons, eidAfter_append]
        · simp only [initialLoop, hg, if_true, hc, if_false, Bool.false_eq_true]
          rw [hstep, eidAfter_connect_cons]
      · simp [initialLoop, hg, eidAfter]

/-! ### Phase 3 lemmas -/

theorem hasCompleting_of_streamless {l : List EngineAction}
    (h : ∀ a ∈ l, a.isStreamAct = false) : hasCompleting l = false := by
  induction l with
  | nil => rfl
  | cons a rest ih =>
      have ha := h a (List.mem_cons_self a rest)
      have hrest : hasCompleting rest = false := ih (fun b hb => h b (List.mem_cons_of_mem a hb))
      cases a <;> simp_all [EngineAction.isStreamAct, hasCompleting]

theorem reconnectStep_afterCompleteOk (st : EngineState) (r : ConnectResp) :
    afterCompleteOk (reconnectStep st r).2 = true := by
  cases r with
  | noneStream => rfl
  | stream chunks exc =>
      have hchunk := chunkActions_all_stream st.ss chunks
      have hnr : noReconnectCall (chunkActions st.ss chunks).2 = true :=
        noReconnectCall_of_streamActs hchunk
      cases exc with
      | none =>
          simp only [reconnectStep, afterCompleteOk]
          exact afterCompleteOk_of_noReconnectCall hnr
      | some e =>
          simp only [reconnectStep, afterCompleteOk]
          by_cases hd : st.disconnect_count + 1 ≥ 3
          · rw [if_pos hd]
            refine afterCompleteOk_append_of (afterCompleteOk_of_noReconnectCall hnr) rfl ?_
            intro _
            rfl
          · rw [if_neg hd]
            refine afterCompleteOk_append_of (afterCompleteOk_of_noReconnectCall hnr) rfl ?_
            intro _
            rfl

theorem reconnectStep_is_complete (st : EngineState) (r : ConnectResp) :
    (reconnectStep st r).1.ss.is_complete
      = (st.ss.is_complete || hasCompleting (reconnectStep st r).2) := by
  cases r with
  | noneStream => simp [reconnectStep, hasCompleting]
  | stream chunks exc =>
      cases exc with
      | none =>
          simp only [reconnectStep]
          rw [chunkActions_is_complete]
          simp [hasCompleting]
      | some e =>
          simp only [reconnectStep]
          by_cases hd : st.disconnect_count + 1 ≥ 3
          · rw [if_pos hd, chunkActions_is_complete, hasCompleting]
            simp [hasCompleting, List.any_append]
          · rw [if_neg hd, chunkActions_is_complete, hasCompleting]
            simp [hasCompleting, List.any_append]

theorem eidAfter_of_streamless {l : List EngineAction} (cur : Option String)
    (h : ∀ a ∈ l, (∀ c, a ≠ .consume c)) : eidAfter cur l = cur := by
  induction l generalizing cur with
  | nil => rfl
  | cons a rest ih =>
      have ha := h a (List.mem_cons_self a rest)
      have hrest := fun b hb => h b (List.mem_cons_of_mem a hb)
      cases a with
      | consume c => exact absurd rfl (ha c)
      | _ => simpa [eidAfter] using ih _ hrest

theorem reconnectStep_last_event_id (st : EngineState) (r : ConnectResp) :
    (reconnectStep st r).1.ss.last_event_id
      = eidAfter st.ss.last_event_id (reconnectStep st r).2 := by
  cases r with
  | noneStream => rfl
  | stream chunks exc =>
      cases exc with
      | none =>
          simp only [reconnectStep, eidAfter]
          rw [chunkActions_last_event_id]
      | some e =>
          simp only [reconnectStep, eidAfter]
          by_cases hd : st.disconnect_count + 1 ≥ 3
          · rw [if_pos hd, eidAfter_append, chunkActions_last_event_id]
            rfl
          · rw [if_neg hd, eidAfter_append, chunkActions_last_event_id]
            rfl

theorem resumeCursorOk_of_self (st : EngineState) (r : ConnectResp) :
    resumeCursorOk st.ss.last_event_id (reconnectStep st r).2 = true := by
  cases r with
  | noneStream => simp [reconnectStep, resumeCursorOk]
  | stream chunks exc =>
      have hchunk := chunkActions_all_stream st.ss chunks
      have hnr : noReconnectCall (chunkActions st.ss chunks).2 = true :=
        noReconnectCall_of_streamActs hchunk
      have hm2 : ∀ cur : Option String,
          resumeCursorOk cur [.reconnectFailed, .forceRefresh] = true := fun _ => rfl
      have hm1 : ∀ cur : Option String,
          resumeCursorOk cur [.reconnectFailed] = true := fun _ => rfl
      cases exc with
      | none =>
          simp only [reconnectStep, resumeCursorOk, beq_self_eq_true, Bool.true_and]
          exact resumeCursorOk_of_noReconnectCall _ hnr
      | some e =>
          simp only [reconnectStep]
          by_cases hd : st.disconnect_count + 1 ≥ 3
          · rw [if_pos hd]
            simp only [resumeCursorOk, beq_self_eq_true, Bool.true_and]
            rw [resumeCursorOk_append, resumeCursorOk_of_noReconnectCall _ hnr, hm2]
            rfl
          · rw [if_neg hd]
            simp only [resumeCursorOk, beq_self_eq_true, Bool.true_and]
            rw [resumeCursorOk_append, resumeCursorOk_of_noReconnectCall _ hnr, hm1]
            rfl

theorem refreshState_append (s : Nat × Bool) (xs ys : List EngineAction) :
    refreshState s (xs ++ ys) = refreshState (refreshState s xs) ys := by
  induction xs generalizing s with
  | nil => rfl
  | cons a rest ih =>
      obtain ⟨n, p⟩ := s
      cases a <;> simp [refreshState, ih]

theorem reconnectStep_refreshDiscipline (st : EngineState) (r : ConnectResp)
    (n : Nat) (hn : n ≤ st.disconnect_count) :
    refreshDiscipline n false (reconnectStep st r).2 = true
      ∧ (refreshState (n, false) (reconnectStep st r).2).2 = false
      ∧ (refreshState (n, false) (reconnectStep st r).2).1
          ≤ (reconnectStep st r).1.disconnect_count := by
  have hneutral : ∀ (s : StreamState) (cs : List WireEvent),
      (chunkActions s cs).2.all EngineAction.isRefreshNeutral = true := by
    intro s cs
    refine all_imp ?_ (chunkActions_all_stream s cs)
    intro a
    cases a <;> simp [EngineAction.isStreamAct, EngineAction.isRefreshNeutral]
  cases r with
  | noneStream =>
      refine ⟨by simp [reconnectStep, refreshDiscipline], ?_, ?_⟩ <;>
        simp [reconnectStep, refreshState, hn]
  | stream chunks exc =>
      cases exc with
      | none =>
          refine ⟨?_, ?_, ?_⟩
          · simp only [reconnectStep, refreshDiscipline, Bool.not_false, Bool.true_and]
            exact refreshDiscipline_of_neutral _ _ (hneutral st.ss chunks)
          · simp only [reconnectStep, refreshState]
            rw [refreshState_of_neutral _ (hneutral st.ss chunks)]
          · simp only [reconnectStep, refreshState]
            rw [refreshState_of_neutral _ (hneutral st.ss chunks)]
            exact hn
      | some e =>
          by_cases hd : st.disconnect_count + 1 ≥ 3
          · refine ⟨?_, ?_, ?_⟩
            · simp only [reconnectStep, if_pos hd, refreshDiscipline, Bool.not_false,
                Bool.true_and]
              rw [refreshDiscipline_append, refreshState_of_neutral _ (hneutral st.ss chunks),
                refreshDiscipline_of_neutral _ _ (hneutral st.ss chunks)]
              simp [refreshDiscipline]
            · simp only [reconnectStep, if_pos hd, refreshState]
              rw [refreshState_append, refreshState_of_neutral _ (hneutral st.ss chunks)]
              rfl
            · simp only [reconnectStep, if_pos hd, refreshState]
              rw [refreshState_append, refreshState_of_neutral _ (hneutral st.ss chunks)]
              simp [refreshState]
              omega
          · have hd3 : ¬ (3 ≤ n + 1) := by omega
            refine ⟨?_, ?_, ?_⟩
            · simp only [reconnectStep, if_neg hd, refreshDiscipline, Bool.not_false,
                Bool.true_and]
              rw [refreshDiscipline_append, refreshState_of_neutral _ (hneutral st.ss chunks),
                refreshDiscipline_of_neutral _ _ (hneutral st.ss chunks)]
              simp [refreshDiscipline]
            · simp only [reconnectStep, if_neg hd, refreshState]
              rw [refreshState_append, refreshState_of_neutral _ (hneutral st.ss chunks)]
              simp [refreshState, hd3]
            · simp only [reconnectStep, if_neg hd, refreshState]
              rw [refreshState_append, refreshState_of_neutral _ (hneutral st.ss chunks)]
              simp [refreshState]
              omega

theorem reconnectLoop_nil_of_complete (cfg : EngineConfig) (st : EngineState)
    (rs : List ConnectResp) (h : st.ss.is_complete = true) :
    reconnectLoop cfg st rs = (st, []) := by
  cases rs with
  | nil => rfl
  | cons r rs => simp [reconnectLoop, h]

theorem reconnectLoop_afterCompleteOk (cfg : EngineConfig) :
    ∀ (rs : List ConnectResp) (st : EngineState),
      afterCompleteOk (reconnectLoop cfg st rs).2 = true := by
  intro rs
  induction rs with
  | nil => intro st; rfl
  | cons r rs ih =>
      intro st
      by_cases hg : st.ss.is_complete = false ∧ optTruthy st.ss.interaction_id = true ∧
          st.stream_retry_count < cfg.maxStreamRetries
      · simp only [reconnectLoop, if_pos hg]
        refine afterCompleteOk_append_of (reconnectStep_afterCompleteOk st r) (ih _) ?_
        intro hcomp
        have hcompl : (reconnectStep st r).1.ss.is_complete = true := by
          rw [reconnectStep_is_complete, hcomp, Bool.or_true]
        rw [reconnectLoop_nil_of_complete cfg _ rs hcompl]
        rfl
      · simp only [reconnectLoop, if_neg hg]
        rfl

theorem reconnectLoop_cursor (cfg : EngineConfig) :
    ∀ (rs : List ConnectResp) (st : EngineState),
      resumeCursorOk st.ss.last_event_id (reconnectLoop cfg st rs).2 = true := by
  intro rs
  induction rs with
  | nil => intro st; rfl
  | cons r rs ih =>
      intro st
      by_cases hg : st.ss.is_complete = false ∧ optTruthy st.ss.interaction_id = true ∧
          st.stream_retry_count < cfg.maxStreamRetries
      · simp only [reconnectLoop, if_pos hg]
        rw [resumeCursorOk_append, resumeCursorOk_of_self,
          ← reconnectStep_last_event_id, ih]
        rfl
      · simp [reconnectLoop, hg, resumeCursorOk]

theorem reconnectLoop_refreshDiscipline (cfg : EngineConfig) :
    ∀ (rs : List ConnectResp) (st : EngineState) (n : Nat),
      n ≤ st.disconnect_count →
      refreshDiscipline n false (reconnectLoop cfg st rs).2 = true := by
  intro rs
  induction rs with
  | nil => intro st n _; rfl
  | cons r rs ih =>
      intro st n hn
      by_cases hg : st.ss.is_complete = false ∧ optTruthy st.ss.interaction_id = true ∧
          st.stream_retry_count < cfg.maxStreamRetries
      · simp only [reconnectLoop, if_pos hg]
        obtain ⟨h1, h2, h3⟩ := reconnectStep_refreshDiscipline st r n hn
        rw [refreshDiscipline_append, h1, h2]
        simp only [Bool.true_and]
        exact ih _ _ h3
      · simp [reconnectLoop, hg, refreshDiscipline]

/-! ### Assembled engine theorems -/

theorem phase1_noReconnect (cfg : EngineConfig) (st : EngineState)
    (rs : List ConnectResp) : noReconnectCall (initialLoop cfg st rs).2 = true := by
  refine all_imp ?_ (initialLoop_all cfg rs st)
  intro a
  cases a <;> simp [EngineAction.isPhase1Act, EngineAction.isReconnectCall]

theorem phase1_refreshNeutral (cfg : EngineConfig) (st : EngineState)
    (rs : List ConnectResp) :
    (initialLoop cfg st rs).2.all EngineAction.isRefreshNeutral = true := by
  refine all_imp ?_ (initialLoop_all cfg rs st)
  intro a
  cases a <;> simp [EngineAction.isPhase1Act, EngineAction.isRefreshNeutral]

/-- Phase 1 behaviour when every `create` call returns `None`: each attempt
records a failure and backs off; exactly `maxInitialRetries` attempts are
consumed, the attempt counter ends at the budget, and nothing else in the
state changes. -/
theorem initialLoop_noneStream (cfg : EngineConfig) :
    ∀ (n : Nat) (st : EngineState), cfg.maxInitialRetries ≤ st.initial_attempt + n →
      initialLoop cfg st (List.replicate n .noneStream)
        = ({ st with initial_attempt := max st.initial_attempt cfg.maxInitialRetries },
           List.replicate (cfg.maxInitialRetries - st.initial_attempt) .connectCall) := by
  intro n
  induction n with
  | zero =>
      intro st hb
      simp only [List.replicate, initialLoop]
      have h1 : max st.initial_attempt cfg.maxInitialRetries = st.initial_attempt :=
        Nat.max_eq_left (by omega)
      have h2 : cfg.maxInitialRetries - st.initial_attempt = 0 := by omega
      rw [h1, h2]
      rfl
  | succ n ih =>
      intro st hb
      by_cases hg : st.initial_attempt < cfg.maxInitialRetries
      · rw [List.replicate_succ]
        simp only [initialLoop, if_pos hg, initialStep, if_pos]
        rw [ih { st with initial_attempt := st.initial_attempt + 1 } (by simp; omega)]
        have h1 : max (st.initial_attempt + 1) cfg.maxInitialRetries
            = max st.initial_attempt cfg.maxInitialRetries := by omega
        have h2 : cfg.maxInitialRetries - st.initial_attempt
            = (cfg.maxInitialRetries - (st.initial_attempt + 1)) + 1 := by omega
        rw [h2, List.replicate_succ]
        simp [h1]
      · rw [List.replicate_succ]
        simp only [initialLoop, if_neg hg]
        have h1 : max st.initial_attempt cfg.maxInitialRetries = st.initial_attempt :=
          Nat.max_eq_left (by omega)
        have h2 : cfg.maxInitialRetries - st.initial_attempt = 0 := by omega
        rw [h1, h2]
        rfl

/-! ## Claim theorems for the streaming engine -/

/-- C3: with a backend whose every `create` call returns an empty (`None`)
stream, `deep_research_stream` makes exactly `MAX_INITIAL_RETRIES` (3)
connect attempts — never more, however many responses are available — and
then, never having observed a `start` event, forces the client connection to
refresh and yields a terminal progress event of kind `error`. -/
theorem deep_research_stream_exhausts_initial_retries (n : Nat) (gets : List ConnectResp)
    (hn : MAX_INITIAL_RETRIES ≤ n) :
    deep_research_stream {} (List.replicate n .noneStream) gets
        = ({ initial_attempt := MAX_INITIAL_RETRIES },
           [.connectCall, .connectCall, .connectCall, .forceRefresh,
            .yieldEvent { event_type := "error",
                          content := some (connectionFailedMsg MAX_INITIAL_RETRIES) }])
      ∧ (deep_research_stream {} (List.replicate n .noneStream) gets).2.countP
          (fun a => a == EngineAction.connectCall) = MAX_INITIAL_RETRIES := by
  have hb : ({} : EngineConfig).maxInitialRetries ≤ ({} : EngineState).initial_attempt + n := by
    simpa [MAX_INITIAL_RETRIES] using hn
  have hloop := initialLoop_noneStream ({} : EngineConfig) n ({} : EngineState) hb
  have htr : deep_research_stream {} (List.replicate n .noneStream) gets
      = ({ initial_attempt := MAX_INITIAL_RETRIES },
         [.connectCall, .connectCall, .connectCall, .forceRefresh,
          .yieldEvent { event_type := "error",
                        content := some (connectionFailedMsg MAX_INITIAL_RETRIES) }]) := by
    simp only [deep_research_stream]
    rw [hloop]
    norm_num [MAX_INITIAL_RETRIES, List.replicate]
  refine ⟨htr, ?_⟩
  rw [htr]
  decide

/-- C10: once the stream has delivered an `interaction.complete` event whose
embedded status is `completed`, or an `error` wire event, the engine never
issues a reconnection request afterwards: both events set the completion
flag and the reconnection loop runs only while that flag is unset, so in
every engine trace no stream-resumption request follows a consumed
completion-flagging event. -/
theorem deep_research_stream_no_reconnect_after_completion (cfg : EngineConfig)
    (creates gets : List ConnectResp) :
    afterCompleteOk (deep_research_stream cfg creates gets).2 = true := by
  simp only [deep_research_stream]
  by_cases h1 : (initialLoop cfg {} creates).1.ss.interaction_id = none ∧
      (initialLoop cfg {} creates).1.ss.is_complete = false
  · rw [if_pos h1]
    exact afterCompleteOk_append_of
      (afterCompleteOk_of_noReconnectCall (phase1_noReconnect cfg {} creates))
      rfl (fun _ => rfl)
  · rw [if_neg h1]
    have hpq : afterCompleteOk ((initialLoop cfg {} creates).2 ++
        (reconnectLoop cfg (initialLoop cfg {} creates).1 gets).2) = true := by
      refine afterCompleteOk_append_of
        (afterCompleteOk_of_noReconnectCall (phase1_noReconnect cfg {} creates))
        (reconnectLoop_afterCompleteOk cfg gets _) ?_
      intro hcomp
      have hc : (initialLoop cfg {} creates).1.ss.is_complete = true := by
        rw [initialLoop_is_complete cfg creates ({} : EngineState)]
        simpa using hcomp
      rw [reconnectLoop_nil_of_complete cfg _ gets hc]
      rfl
    by_cases h2 : (reconnectLoop cfg (initialLoop cfg {} creates).1 gets).1.ss.is_complete = true
    · simp only [h2, Bool.not_true, Bool.false_eq_true, if_false]
      exact hpq
    · have h2' : (reconnectLoop cfg
          (initialLoop cfg {} creates).1 gets).1.ss.is_complete = false := by
        revert h2
        cases (reconnectLoop cfg (initialLoop cfg {} creates).1 gets).1.ss.is_complete <;> simp
      simp only [h2', Bool.not_false, if_true]
      exact afterCompleteOk_append_of hpq rfl (fun _ => rfl)

/-- C7: in every engine run, whenever the running count of reconnect
failures (reconnect attempts that raised an exception) reaches three — in
particular after three consecutive failures with no successful reconnect
between them — a forced client refresh occurs before any further
reconnection request.  The count in the code (`disconnect_count`) also
includes Phase 1 disconnects and is never reset, so it dominates the
scanner's count, and every failing iteration at count three or more
refreshes within the same iteration. -/
theorem deep_research_stream_refresh_after_failures (cfg : EngineConfig)
    (creates gets : List ConnectResp) :
    refreshDiscipline 0 false (deep_research_stream cfg creates gets).2 = true := by
  simp only [deep_research_stream]
  by_cases h1 : (initialLoop cfg {} creates).1.ss.interaction_id = none ∧
      (initialLoop cfg {} creates).1.ss.is_complete = false
  · rw [if_pos h1]
    rw [refreshDiscipline_append,
      refreshDiscipline_of_neutral _ _ (phase1_refreshNeutral cfg {} creates),
      refreshState_of_neutral _ (phase1_refreshNeutral cfg {} creates)]
    rfl
  · rw [if_neg h1]
    have hq := reconnectLoop_refreshDiscipline cfg gets
      (initialLoop cfg {} creates).1 0 (Nat.zero_le _)
    have hpq : refreshDiscipline 0 false ((initialLoop cfg {} creates).2 ++
        (reconnectLoop cfg (initialLoop cfg {} creates).1 gets).2) = true := by
      rw [refreshDiscipline_append,
        refreshDiscipline_of_neutral _ _ (phase1_refreshNeutral cfg {} creates),
        refreshState_of_neutral _ (phase1_refreshNeutral cfg {} creates), hq]
      rfl
    by_cases h2 : (reconnectLoop cfg (initialLoop cfg {} creates).1 gets).1.ss.is_complete = true
    · simp only [h2, Bool.not_true, Bool.false_eq_true, if_false]
      exact hpq
    · have h2' : (reconnectLoop cfg
          (initialLoop cfg {} creates).1 gets).1.ss.is_complete = false := by
        revert h2
        cases (reconnectLoop cfg (initialLoop cfg {} creates).1 gets).1.ss.is_complete <;> simp
      simp only [h2', Bool.not_false, if_true]
      rw [refreshDiscipline_append, hpq]
      simp only [Bool.true_and]
      refine refreshDiscipline_of_neutral _ _ ?_
      rfl

/-- C1 counterexample: an `interaction.start` wire event carrying the
truthy `event_id` "ev1" does not update the decoder's remembered
`last_event_id` (the start branch `continue`s before the update), and the
reconnection request issued after that stream drops carries no
`last_event_id` at all rather than "ev1". -/
theorem start_event_id_not_remembered :
    optTruthy ((WireEvent.start "abc" (some "ev1")).eventId) = true
      ∧ (processChunk {} (.start "abc" (some "ev1"))).1.last_event_id ≠ some "ev1"
      ∧ (deep_research_stream {} [.stream [.start "abc" (some "ev1")] none]
            [.stream [.complete "completed" (some "e9")] none]).2
          = [.connectCall, .consume (.start "abc" (some "ev1")),
             .yieldEvent { event_type := "start", interaction_id := some "abc",
                           event_id := some "ev1" },
             .reconnectCall "abc" none,
             .consume (.complete "completed" (some "e9")),
             .yieldEvent { event_type := "complete", interaction_id := some "abc",
                           event_id := some "e9" }] := by
  refine ⟨rfl, by decide, rfl⟩

/-- C1 (amended): every wire event other than `interaction.start` that
carries a non-empty `event_id` updates the decoder's remembered
`last_event_id` to that id, and in every engine run each reconnection
request carries exactly the cursor accumulated this way over all wire
events consumed before it (omitted while no such id has been observed). -/
theorem last_event_id_update_and_resumption :
    (∀ (s : StreamState) (c : WireEvent), c.isStart = false →
        optTruthy c.eventId = true →
        (processChunk s c).1.last_event_id = c.eventId)
      ∧ ∀ (cfg : EngineConfig) (creates gets : List ConnectResp),
          resumeCursorOk none (deep_research_stream cfg creates gets).2 = true := by
  constructor
  · intro s c h1 h2
    rw [processChunk_last_event_id, chunkEidUpdate, h1]
    simp [updateEventId, h2]
  · intro cfg creates gets
    simp only [deep_research_stream]
    have hp1 : resumeCursorOk none (initialLoop cfg {} creates).2 = true :=
      resumeCursorOk_of_noReconnectCall _ (phase1_noReconnect cfg {} creates)
    have heid : eidAfter none (initialLoop cfg {} creates).2
        = (initialLoop cfg {} creates).1.ss.last_event_id :=
      (initialLoop_last_event_id cfg creates ({} : EngineState)).symm
    by_cases h1 : (initialLoop cfg {} creates).1.ss.interaction_id = none ∧
        (initialLoop cfg {} creates).1.ss.is_complete = false
    · rw [if_pos h1, resumeCursorOk_append, hp1]
      simp only [Bool.true_and]
      exact resumeCursorOk_of_noReconnectCall _ rfl
    · rw [if_neg h1]
      have hpq : resumeCursorOk none ((initialLoop cfg {} creates).2 ++
          (reconnectLoop cfg (initialLoop cfg {} creates).1 gets).2) = true := by
        rw [resumeCursorOk_append, hp1, heid,
          reconnectLoop_cursor cfg gets (initialLoop cfg {} creates).1]
        rfl
      by_cases h2 : (reconnectLoop cfg
          (initialLoop cfg {} creates).1 gets).1.ss.is_complete = true
      · simp only [h2, Bool.not_true, Bool.false_eq_true, if_false]
        exact hpq
      · have h2' : (reconnectLoop cfg
            (initialLoop cfg {} creates).1 gets).1.ss.is_complete = false := by
          revert h2
          cases (reconnectLoop cfg (initialLoop cfg {} creates).1 gets).1.ss.is_complete <;>
            simp
        simp only [h2', Bool.not_false, if_true]
        rw [resumeCursorOk_append, hpq]
        simp only [Bool.true_and]
        exact resumeCursorOk_of_noReconnectCall _ rfl

/-- Witness for the amended C1 theorem at a concrete text delta carrying
`event_id` "e5". -/
theorem last_event_id_update_and_resumption_witness :
    (processChunk {} (.delta (.text "x") (some "e5"))).1.last_event_id = some "e5" :=
  last_event_id_update_and_resumption.1 {} (.delta (.text "x") (some "e5"))
    (by decide) (by decide)

/-- Witness for C3 at four available `None` responses. -/
theorem deep_research_stream_exhausts_initial_retries_witness :
    (deep_research_stream {} (List.replicate 4 .noneStream) []).2.countP
        (fun a => a == EngineAction.connectCall) = MAX_INITIAL_RETRIES :=
  (deep_research_stream_exhausts_initial_retries 4 [] (by decide)).2

/-! ### Aggregation lemmas -/

theorem foldl_append_str (l : List String) :
    ∀ a : String, l.foldl (fun r s => r ++ s) a = a ++ l.foldl (fun r s => r ++ s) "" := by
  induction l with
  | nil => intro a; simp [String.append_empty]
  | cons x l ih =>
      intro a
      simp only [List.foldl_cons]
      rw [ih (a ++ x), ih ("" ++ x), String.empty_append, String.append_assoc]

theorem join_cons (x : String) (l : List String) :
    String.join (x :: l) = x ++ String.join l := by
  simp only [String.join, List.foldl_cons]
  rw [String.empty_append]
  exact foldl_append_str l x

theorem join_snoc (l : List String) (x : String) :
    String.join (l ++ [x]) = String.join l ++ x := by
  induction l with
  | nil => simp [join_cons, String.join, String.empty_append, String.append_empty]
  | cons y l ih =>
      rw [List.cons_append, join_cons, ih, join_cons, String.append_assoc]

theorem textConcat_cons (p : DeepResearchProgress) (ps : List DeepResearchProgress) :
    textConcat (p :: ps)
      = (if p.event_type = "text" then p.content.getD "" else "") ++ textConcat ps := by
  simp only [textConcat, List.map_cons]
  exact join_cons _ _

theorem content_getD_of_not_truthy {c : Option String} (h : optTruthy c = false) :
    c.getD "" = "" := by
  cases c with
  | none => rfl
  | some s => simpa [optTruthy] using h

theorem aggStep_text_join (a : AggState) (p : DeepResearchProgress) (a' : AggState)
    (h : aggStep a p = .ok a') :
    String.join a'.text_parts = String.join a.text_parts
      ++ (if p.event_type = "text" then p.content.getD "" else "") := by
  unfold aggStep at h
  by_cases h1 : p.event_type = "start"
  · rw [if_pos h1] at h
    have hne : ¬ p.event_type = "text" := by rw [h1]; decide
    injection h with h
    rw [if_neg hne, String.append_empty, ← h]
  · rw [if_neg h1] at h
    by_cases h2 : p.event_type = "thought"
    · rw [if_pos h2] at h
      have hne : ¬ p.event_type = "text" := by rw [h2]; decide
      rw [if_neg hne, String.append_empty]
      injection h with h
      by_cases ht : optTruthy p.content = true
      · rw [if_pos ht] at h; rw [← h]
      · rw [if_neg ht] at h; rw [← h]
    · rw [if_neg h2] at h
      by_cases h3 : p.event_type = "text"
      · rw [if_pos h3] at h
        rw [if_pos h3]
        injection h with h
        by_cases ht : optTruthy p.content = true
        · rw [if_pos ht] at h
          rw [← h]
          exact join_snoc _ _
        · rw [if_neg ht] at h
          rw [← h, content_getD_of_not_truthy (by revert ht; cases optTruthy p.content <;> simp),
            String.append_empty]
      · rw [if_neg h3] at h
        by_cases h4 : p.event_type = "error"
        · rw [if_pos h4] at h
          exact absurd h (by simp)
        · rw [if_neg h4] at h
          injection h with h
          rw [if_neg h3, String.append_empty, ← h]

theorem aggregate_text_join :
    ∀ (events : List DeepResearchProgress) (a agg : AggState),
      aggregate a events = .ok agg →
      String.join agg.text_parts = String.join a.text_parts ++ textConcat events := by
  intro events
  induction events with
  | nil =>
      intro a agg h
      simp only [aggregate] at h
      injection h with h
      rw [← h]
      simp [textConcat, String.join, String.append_empty]
  | cons p ps ih =>
      intro a agg h
      simp only [aggregate] at h
      cases hs : aggStep a p with
      | error e => rw [hs] at h; exact absurd h (by simp)
      | ok a' =>
          rw [hs] at h
          rw [ih a' agg h, aggStep_text_join a p a' hs, textConcat_cons,
            String.append_assoc]

theorem aggStep_error_code (a : AggState) (p : DeepResearchProgress)
    (e : DeepResearchError) (h : aggStep a p = .error e) :
    e.code = "RESEARCH_FAILED" := by
  unfold aggStep at h
  split_ifs at h <;> injection h with h <;> rw [← h]

theorem aggregate_error_code :
    ∀ (events : List DeepResearchProgress) (a : AggState) (e : DeepResearchError),
      aggregate a events = .error e → e.code = "RESEARCH_FAILED" := by
  intro events
  induction events with
  | nil => intro a e h; exact absurd h (by simp [aggregate])
  | cons p ps ih =>
      intro a e h
      simp only [aggregate] at h
      cases hs : aggStep a p with
      | error e' =>
          rw [hs] at h
          injection h with h
          rw [← h]
          exact aggStep_error_code a p e' hs
      | ok a' =>
          rw [hs] at h
          exact ih a' e h

theorem pollLoop_error_code :
    ∀ (polls : List (ℚ × PollResp)) (ft : String) (e : DeepResearchError),
      pollLoop ft polls = .errored e → e.code = "RESEARCH_FAILED" := by
  intro polls
  induction polls with
  | nil => intro ft e h; exact absurd h (by simp [pollLoop])
  | cons tr rest ih =>
      intro ft e h
      obtain ⟨t, r⟩ := tr
      cases r with
      | snapshot s =>
          simp only [pollLoop] at h
          by_cases htime : t < MAX_POLL_TIME
          · rw [if_pos htime] at h
            by_cases hc : s.status = "completed"
            · rw [if_pos hc] at h
              exact absurd h (by simp)
            · rw [if_neg hc] at h
              by_cases hf : s.status = "failed"
              · rw [if_pos hf] at h
                injection h with h
                rw [← h]
              · rw [if_neg hf] at h
                exact ih ft e h
          · rw [if_neg htime] at h
            exact absurd h (by simp)
      | raised msg =>
          simp only [pollLoop] at h
          by_cases htime : t < MAX_POLL_TIME
          · rw [if_pos htime] at h
            by_cases hm : is_retryable_error msg = true
            · rw [if_pos hm] at h
              exact ih ft e h
            · rw [if_neg hm] at h
              exact absurd h (by simp)
          · rw [if_neg htime] at h
            exact absurd h (by simp)

/-! ### Run-decomposition lemmas -/

theorem critique_research_default (e : String) :
    critique_research (.ok ()) (.error e)
      = .ok { rating := "PASS", gaps := [], follow_up_questions := [],
              raw_response := "Critique failed: " ++ e } := rfl

theorem grounded_critique_client_err (e : String) (m : Except String GroundedResp) :
    grounded_critique (.error e) m = .error e := rfl

theorem deep_research_ok_eq (env : ResearchEnv)
    (pc : DeepResearchResult → DeepResearchResult) (rc ar g : Bool)
    (result : DeepResearchResult) (hprim : primaryResult env = .ok result) :
    deep_research env pc rc ar g
      = refineTail env ar g
          (if rc = true ∧ result.text ≠ "" then pc result else result) := by
  unfold deep_research
  rw [hprim]

theorem deep_research_err_eq (env : ResearchEnv)
    (pc : DeepResearchResult → DeepResearchResult) (rc ar g : Bool)
    (e : RunError) (hprim : primaryResult env = .err e) :
    deep_research env pc rc ar g = .err e := by
  unfold deep_research
  rw [hprim]

theorem deep_research_fuel_eq (env : ResearchEnv)
    (pc : DeepResearchResult → DeepResearchResult) (rc ar g : Bool)
    (hprim : primaryResult env = .fuelOut) :
    deep_research env pc rc ar g = .fuelOut := by
  unfold deep_research
  rw [hprim]

theorem refineTail_false_false (env : ResearchEnv) (result : DeepResearchResult) :
    refineTail env false false result = .ok result := rfl

theorem refineTail_no_dr (env : ResearchEnv) (ar g : Bool)
    (result : DeepResearchResult) (e : DeepResearchError) :
    refineTail env ar g result ≠ .err (.dr e) := by
  unfold refineTail
  cases ar with
  | false => simp
  | true =>
      rw [if_pos rfl]
      rcases hx : autoRefinePhase env result with m | p <;> simp [hx]

/-! ## Claim theorems for deep_research -/

/-- C2 counterexample: a run whose stream yields a start id but no text
events, with a first poll returning a completed interaction whose output is
"X": `deep_research` returns text "X", although the concatenation of the
text-kind events is empty — the polling fallback substitutes fetched text. -/
theorem deep_research_text_poll_substitution :
    textConcat [{ event_type := "start", interaction_id := some "abc" },
                { event_type := "complete", interaction_id := some "abc" }] = ""
    ∧ deep_research
        { events := [{ event_type := "start", interaction_id := some "abc" },
                     { event_type := "complete", interaction_id := some "abc" }],
          polls := [((0 : ℚ), .snapshot { status := "completed", outputs := [some "X"] })] }
        id true false false
      = .ok { text := "X", interaction_id := some "abc",
              raw_interaction := some { status := "completed", outputs := [some "X"] } } := by
  exact ⟨rfl, by decide⟩

/-- C2 (amended): whenever the concatenation of the streamed text-kind
event contents contains a non-whitespace character (so the polling fallback
is not entered), and citation post-processing preserves the text, a
successful `deep_research` run with the refinement passes disabled returns
exactly that concatenation, in arrival order, with no reordering or
deduplication. -/
theorem deep_research_text_is_concat (env : ResearchEnv)
    (pc : DeepResearchResult → DeepResearchResult) (rc : Bool)
    (hpc : ∀ r, (pc r).text = r.text)
    (ht : pyStrip (textConcat env.events) ≠ "")
    (r : DeepResearchResult)
    (hr : deep_research env pc rc false false = .ok r) :
    r.text = textConcat env.events := by
  cases hagg : aggregate {} env.events with
  | error e =>
      unfold deep_research primaryResult at hr
      rw [hagg] at hr
      exact absurd hr (by simp)
  | ok agg =>
      have hj : String.join agg.text_parts = textConcat env.events := by
        have h := aggregate_text_join env.events {} agg hagg
        simpa [AggState.text_parts, String.join, String.empty_append] using h
      have hguard : ¬ (pyStrip (String.join agg.text_parts) = ""
          ∧ optTruthy agg.interaction_id = true) := by
        rw [hj]
        intro hcon
        exact ht hcon.1
      have hprim : primaryResult env
          = .ok { text := String.join agg.text_parts,
                  thinking_summaries := agg.thinking_summaries,
                  interaction_id := agg.interaction_id, raw_interaction := none } := by
        simp only [primaryResult, hagg]
        rw [if_neg hguard]
      rw [deep_research_ok_eq env pc rc false false _ hprim, refineTail_false_false] at hr
      injection hr with hr
      dsimp only at hr
      by_cases hc : rc = true ∧ String.join agg.text_parts ≠ ""
      · rw [if_pos hc] at hr
        rw [← hr, hpc]
        exact hj
      · rw [if_neg hc] at hr
        rw [← hr]
        exact hj

/-- Witness for the amended C2 theorem: a stream of two text deltas with
identity citation processing yields their concatenation "Hello World". -/
theorem deep_research_text_is_concat_witness :
    ({ text := "Hello World" } : DeepResearchResult).text
      = textConcat [{ event_type := "text", content := some "Hello " },
                    { event_type := "text", content := some "World" }] :=
  deep_research_text_is_concat
    { events := [{ event_type := "text", content := some "Hello " },
                 { event_type := "text", content := some "World" }] }
    id true (fun _ => rfl) (by decide)
    { text := "Hello World" } (by decide)

/-! ### Polling claim (C5) -/

/-- C5 counterexample: the stream yields only a start id, and the very
first poll (at elapsed time 0, far below the `MAX_POLL_TIME` ceiling)
reports the interaction `completed` but with no outputs: `deep_research`
raises `TIMEOUT` even though the ceiling never elapsed and the interaction
completed. -/
theorem poll_completed_empty_raises_timeout :
    deep_research { events := [{ event_type := "start", interaction_id := some "abc" }],
                    polls := [((0 : ℚ), .snapshot { status := "completed" })] }
        id true false false
      = .err (.dr { code := "TIMEOUT", message := "Deep Research timed out" })
    ∧ (0 : ℚ) < MAX_POLL_TIME := by
  refine ⟨by decide, by norm_num [MAX_POLL_TIME]⟩

theorem critique_research_ok (m : Except String String) :
    ∃ c, critique_research (.ok ()) m = .ok c := by
  cases m with
  | error e => exact ⟨_, rfl⟩
  | ok t => exact ⟨_, rfl⟩

/-- C5 (amended): a poll that returns status `completed` (before the
ceiling) always stops the polling loop at once, extracting the final text
from the last output (keeping the accumulated text when there are no
outputs); and a `TIMEOUT` error is raised if and only if the polling phase
was entered and its loop ended — by the wall-clock ceiling elapsing, or by
a completed interaction carrying no usable text — while the final text was
still whitespace-only. -/
theorem primaryResult_timeout_inv (env : ResearchEnv) (m : String)
    (h : primaryResult env = .err (.dr { code := "TIMEOUT", message := m })) :
    ∃ agg ft raw, aggregate {} env.events = .ok agg
      ∧ pyStrip (String.join agg.text_parts) = ""
      ∧ optTruthy agg.interaction_id = true
      ∧ pollLoop (String.join agg.text_parts) env.polls = .exited ft raw
      ∧ pyStrip ft = "" := by
  cases hagg : aggregate {} env.events with
  | error e =>
      have hcode := aggregate_error_code env.events {} e hagg
      simp only [primaryResult, hagg] at h
      injection h with h
      injection h with h
      rw [h] at hcode
      exact absurd (show ("TIMEOUT" : String) = "RESEARCH_FAILED" from hcode) (by decide)
  | ok agg =>
      simp only [primaryResult, hagg] at h
      by_cases hg : pyStrip (String.join agg.text_parts) = ""
          ∧ optTruthy agg.interaction_id = true
      · rw [if_pos hg] at h
        cases hpoll : pollLoop (String.join agg.text_parts) env.polls with
        | fuelOut =>
            simp only [hpoll] at h
            exact absurd h (by simp)
        | errored e =>
            have hcode := pollLoop_error_code env.polls _ e hpoll
            simp only [hpoll] at h
            injection h with h
            injection h with h
            rw [h] at hcode
            exact absurd (show ("TIMEOUT" : String) = "RESEARCH_FAILED" from hcode) (by decide)
        | raisedOther m2 =>
            simp only [hpoll] at h
            injection h with h
            injection h
        | exited ft raw =>
            simp only [hpoll] at h
            by_cases hft : pyStrip ft = ""
            · exact ⟨agg, ft, raw, rfl, hg.1, hg.2, hpoll, hft⟩
            · rw [if_neg hft] at h
              exact absurd h (by simp)
      · rw [if_neg hg] at h
        exact absurd h (by simp)

/-- C5 (amended): a poll that returns status `completed` (before the
ceiling) always stops the polling loop at once, extracting the final text
from the last output (keeping the accumulated text when there are no
outputs); and a `TIMEOUT` error is raised if and only if the polling phase
was entered and its loop ended — by the wall-clock ceiling elapsing, or by
a completed interaction carrying no usable text — while the final text was
still whitespace-only. -/
theorem poll_stops_on_completed_and_timeout_iff :
    (∀ (finalText : String) (t : ℚ) (s : PollSnapshot) (rest : List (ℚ × PollResp)),
        t < MAX_POLL_TIME → s.status = "completed" →
        pollLoop finalText ((t, .snapshot s) :: rest)
          = .exited (match s.outputs.getLast? with
              | some o => o.getD ""
              | none => finalText) (some s))
    ∧ (∀ (env : ResearchEnv) (pc : DeepResearchResult → DeepResearchResult) (rc ar g : Bool),
        (∃ m, deep_research env pc rc ar g = .err (.dr { code := "TIMEOUT", message := m }))
          ↔ ∃ agg ft raw, aggregate {} env.events = .ok agg
              ∧ pyStrip (String.join agg.text_parts) = ""
              ∧ optTruthy agg.interaction_id = true
              ∧ pollLoop (String.join agg.text_parts) env.polls = .exited ft raw
              ∧ pyStrip ft = "") := by
  constructor
  · intro finalText t s rest htime hstat
    simp only [pollLoop]
    rw [if_pos htime, if_pos hstat]
  · intro env pc rc ar g
    constructor
    · rintro ⟨m, hm⟩
      cases hprimAll : primaryResult env with
      | fuelOut =>
          rw [deep_research_fuel_eq env pc rc ar g hprimAll] at hm
          exact absurd hm (by simp)
      | err e' =>
          rw [deep_research_err_eq env pc rc ar g e' hprimAll] at hm
          injection hm with hm
          rw [hm] at hprimAll
          exact primaryResult_timeout_inv env m hprimAll
      | ok result =>
          rw [deep_research_ok_eq env pc rc ar g result hprimAll] at hm
          exact absurd hm (refineTail_no_dr env ar g _ _)
    · rintro ⟨agg, ft, raw, hagg, h1, h2, hpoll, hft⟩
      refine ⟨"Deep Research timed out", ?_⟩
      have hprim : primaryResult env
          = .err (.dr { code := "TIMEOUT", message := "Deep Research timed out" }) := by
        simp only [primaryResult, hagg, hpoll]
        rw [if_pos ⟨h1, h2⟩, if_pos hft]
      exact deep_research_err_eq env pc rc ar g _ hprim

/-- Witness for the amended C5 theorem: a completed poll at elapsed time 5
with output "X" stops the loop at once, ignoring a later `failed` poll. -/
theorem poll_stops_on_completed_witness :
    pollLoop "" [((5 : ℚ), .snapshot { status := "completed", outputs := [some "X"] }),
                 ((6 : ℚ), .snapshot { status := "failed" })]
      = .exited "X" (some { status := "completed", outputs := [some "X"] }) :=
  poll_stops_on_completed_and_timeout_iff.1 "" 5
    { status := "completed", outputs := [some "X"] }
    [((6 : ℚ), .snapshot { status := "failed" })]
    (by norm_num [MAX_POLL_TIME]) rfl

/-! ### Refinement claims (C4, C8) -/

/-- C4 counterexample: with `auto_refine` enabled, an exception raised while
acquiring the client inside the critique pass (before its `try` block)
propagates out of `deep_research` — the already-built primary result is
lost. -/
theorem critique_client_exception_propagates :
    deep_research
        { events := [{ event_type := "start", interaction_id := some "abc" },
                     { event_type := "text", content := some "R",
                       interaction_id := some "abc" }],
          critiqueClient := .error "boom" }
        id false true false
      = .err (.py "boom") := by
  decide

theorem autoRefinePhase_ok (env : ResearchEnv) (r : DeepResearchResult)
    (hcl : env.critiqueClient = .ok ()) :
    ∃ p, autoRefinePhase env r = .ok p := by
  unfold autoRefinePhase
  by_cases hg : r.text ≠ "" ∧ optTruthy r.interaction_id = true
  · rw [if_pos hg, hcl]
    obtain ⟨c, hc⟩ := critique_research_ok env.critiqueResp
    simp only [hc]
    by_cases hi : c.needs_refinement = true ∧ c.follow_up_questions ≠ []
    · rw [if_pos hi]; exact ⟨_, rfl⟩
    · rw [if_neg hi]; exact ⟨_, rfl⟩
  · rw [if_neg hg]; exact ⟨_, rfl⟩

theorem refineTail_ok (env : ResearchEnv) (ar g : Bool)
    (result : DeepResearchResult) (hcl : env.critiqueClient = .ok ()) :
    ∃ r', refineTail env ar g result = .ok r' := by
  unfold refineTail
  cases ar with
  | false => exact ⟨_, rfl⟩
  | true =>
      rw [if_pos rfl]
      obtain ⟨p, hp⟩ := autoRefinePhase_ok env result hcl
      rw [hp]
      exact ⟨_, rfl⟩

/-- C4 (amended): every exception arising inside the refinement passes is
degraded to a no-op — a failed critique model call yields the default
`PASS` result and leaves the result untouched, a failed grounded pass
(including its client acquisition, which `deep_research` wraps in
`try/except`) leaves the text untouched, and with the critique pass's own
client acquisition succeeding a `deep_research` run whose primary phase
succeeded always returns a result — but an exception raised while acquiring
the client inside the critique pass itself propagates (the counterexample
above). -/
theorem refinement_exceptions_degrade :
    (∀ (env : ResearchEnv) (r : DeepResearchResult),
        env.critiqueClient = .ok () → ∃ p, autoRefinePhase env r = .ok p)
    ∧ (∀ (env : ResearchEnv) (r : DeepResearchResult) (e : String),
        env.critiqueClient = .ok () → env.critiqueResp = .error e →
        autoRefinePhase env r = .ok (r, 0))
    ∧ (∀ (env : ResearchEnv) (r : DeepResearchResult) (e : String),
        env.groundedClient = .error e → (groundedPhase env r).text = r.text)
    ∧ (∀ (env : ResearchEnv) (pc : DeepResearchResult → DeepResearchResult)
          (rc ar g : Bool) (r : DeepResearchResult),
        env.critiqueClient = .ok () → primaryResult env = .ok r →
        ∃ r', deep_research env pc rc ar g = .ok r') := by
  refine ⟨autoRefinePhase_ok, ?_, ?_, ?_⟩
  · intro env r e hcl hresp
    unfold autoRefinePhase
    by_cases hg : r.text ≠ "" ∧ optTruthy r.interaction_id = true
    · rw [if_pos hg, hcl, hresp]
      simp only [critique_research_default]
      simp [CritiqueResult.needs_refinement]
    · rw [if_neg hg]
  · intro env r e hgc
    unfold groundedPhase
    by_cases hg : r.text ≠ ""
    · rw [if_pos hg, hgc]
      simp only [grounded_critique_client_err]
    · rw [if_neg hg]
  · intro env pc rc ar g r hcl hprim
    rw [deep_research_ok_eq env pc rc ar g r hprim]
    exact refineTail_ok env ar g _ hcl

/-- Witness for the amended C4 theorem: with the critique model call and
the grounded pass both failing, a run over a one-text-delta stream still
returns a result. -/
theorem refinement_exceptions_degrade_witness :
    autoRefinePhase
        { events := [], critiqueResp := .error "model down" }
        { text := "R", interaction_id := some "abc" }
      = .ok ({ text := "R", interaction_id := some "abc" }, 0) :=
  refinement_exceptions_degrade.2.1
    { events := [], critiqueResp := .error "model down" }
    { text := "R", interaction_id := some "abc" } "model down" rfl rfl

/-- C8: when the critique pass returns a `PASS` rating, the auto-refine
phase issues zero follow-up calls and returns the result object unchanged;
consequently a `deep_research` run with `auto_refine` enabled is
indistinguishable from the same run with it disabled. -/
theorem critique_pass_is_frame (env : ResearchEnv) :
    (∀ (r : DeepResearchResult) (c : CritiqueResult),
        critique_research env.critiqueClient env.critiqueResp = .ok c →
        c.rating = "PASS" →
        autoRefinePhase env r = .ok (r, 0))
    ∧ (∀ (pc : DeepResearchResult → DeepResearchResult) (rc : Bool) (c : CritiqueResult),
        critique_research env.critiqueClient env.critiqueResp = .ok c →
        c.rating = "PASS" →
        deep_research env pc rc true false = deep_research env pc rc false false) := by
  have part1 : ∀ (r : DeepResearchResult) (c : CritiqueResult),
      critique_research env.critiqueClient env.critiqueResp = .ok c →
      c.rating = "PASS" →
      autoRefinePhase env r = .ok (r, 0) := by
    intro r c hc hp
    unfold autoRefinePhase
    by_cases hg : r.text ≠ "" ∧ optTruthy r.interaction_id = true
    · rw [if_pos hg]
      simp only [hc]
      rw [if_neg (by simp [CritiqueResult.needs_refinement, hp])]
    · rw [if_neg hg]
  refine ⟨part1, ?_⟩
  intro pc rc c hc hp
  cases hprim : primaryResult env with
  | fuelOut =>
      rw [deep_research_fuel_eq env pc rc true false hprim,
        deep_research_fuel_eq env pc rc false false hprim]
  | err e =>
      rw [deep_research_err_eq env pc rc true false e hprim,
        deep_research_err_eq env pc rc false false e hprim]
  | ok result =>
      rw [deep_research_ok_eq env pc rc true false result hprim,
        deep_research_ok_eq env pc rc false false result hprim,
        refineTail_false_false]
      unfold refineTail
      rw [if_pos rfl, part1 _ c hc hp]
      rfl

/-- Witness for C8 at a concrete `PASS` critique reply. -/
theorem critique_pass_is_frame_witness :
    autoRefinePhase
        { events := [], critiqueResp := .ok "RATING: PASS" }
        { text := "R", interaction_id := some "abc" }
      = .ok ({ text := "R", interaction_id := some "abc" }, 0) :=
  (critique_pass_is_frame { events := [], critiqueResp := .ok "RATING: PASS" }).1
    { text := "R", interaction_id := some "abc" }
    { rating := "PASS", raw_response := "RATING: PASS" } rfl rfl

/-! ### Follow-up error code (C9) -/

/-- C9 evaluation: a follow-up call that completes without producing any
text (the backend returns an interaction with no outputs) raises the
intended `NO_RESPONSE` error inside the `try`, but the blanket
`except Exception` of `research_followup` re-wraps it, so the caller
observes `FOLLOWUP_FAILED` (with the `NO_RESPONSE` text only inside the
message) — not `NO_RESPONSE` as the taxonomy specifies. -/
theorem followup_empty_wrapped_as_followup_failed :
    research_followup (.ok ()) (.ok [])
      = .error (.drError
          { code := "FOLLOWUP_FAILED",
            message := "NO_RESPONSE: No response received from follow-up" }) := rfl

/-! ### Client health (C6) -/

theorem needs_refresh_iff (cfg : HealthConfig) (now : ℚ) (h : ClientHealth) :
    h.needs_refresh cfg now = true ↔
      (now - h.created_at > cfg.clientMaxAgeSeconds
        ∨ (cfg.clientMaxRequests > 0 ∧ h.request_count ≥ cfg.clientMaxRequests)
        ∨ h.consecutive_failures ≥ 3
        ∨ now - h.last_request_at > cfg.clientMaxAgeSeconds / 2) := by
  simp only [ClientHealth.needs_refresh]
  split_ifs with h1 h2 h3 h4
  · simp [h1]
  · simp [h2]
  · simp [h3]
  · simp [h4]
  · simp [h1, h2, h3, h4]

/-- C6: `needs_refresh` is true exactly when the client is too old, has hit
a nonzero request cap, has at least three consecutive failures, or has been
idle for more than half the maximum age; in particular three consecutive
failures alone force a refresh, while two consecutive failures with every
other field fresh do not. -/
theorem needs_refresh_spec (cfg : HealthConfig) (now : ℚ) (h : ClientHealth) :
    (h.needs_refresh cfg now = true ↔
      (now - h.created_at > cfg.clientMaxAgeSeconds
        ∨ (cfg.clientMaxRequests > 0 ∧ h.request_count ≥ cfg.clientMaxRequests)
        ∨ h.consecutive_failures ≥ 3
        ∨ now - h.last_request_at > cfg.clientMaxAgeSeconds / 2))
    ∧ (h.consecutive_failures = 3 → h.needs_refresh cfg now = true)
    ∧ (now - h.created_at ≤ cfg.clientMaxAgeSeconds →
        (cfg.clientMaxRequests > 0 → h.request_count < cfg.clientMaxRequests) →
        h.consecutive_failures = 2 →
        now - h.last_request_at ≤ cfg.clientMaxAgeSeconds / 2 →
        h.needs_refresh cfg now = false) := by
  refine ⟨needs_refresh_iff cfg now h, ?_, ?_⟩
  · intro h3
    rw [needs_refresh_iff]
    right; right; left
    omega
  · intro ha hb hc hd
    cases hnr : h.needs_refresh cfg now with
    | false => rfl
    | true =>
        exfalso
        rcases (needs_refresh_iff cfg now h).mp hnr with h1 | h2 | h3 | h4
        · linarith
        · exact absurd h2.2 (by have := hb h2.1; omega)
        · omega
        · linarith

/-- Witness for C6 at concrete numbers: with max age 1800 s, no request
cap, a 100 s old client last used just now, two consecutive failures do not
force a refresh while three do. -/
theorem needs_refresh_spec_witness :
    ClientHealth.needs_refresh {} 100
        { created_at := 0, request_count := 1, last_request_at := 100,
          consecutive_failures := 2 } = false
    ∧ ClientHealth.needs_refresh {} 100
        { created_at := 0, request_count := 1, last_request_at := 100,
          consecutive_failures := 3 } = true :=
  ⟨(needs_refresh_spec {} 100 _).2.2 (by norm_num) (by intro hcap; exact absurd hcap (by norm_num))
      rfl (by norm_num),
   (needs_refresh_spec {} 100 _).2.1 rfl⟩

end GeminiResearchMCP

